import Mathlib

/-!
Verification of the layered animation data model and evaluator
(blender/source/blender/animrig: animation.cc and evaluation.cc).

The development is a shallow embedding: DNA structs become Lean structures,
the owned grow/shrink pointer arrays become Lean lists, heap addresses used
for identity comparison become explicit natural-number handles (field ptr),
and 32-bit machine integers become Int (the only overflow site,
last_output_stable_index, is guarded by a fatal assert in the source, so the
non-wrapping model is faithful below the asserted bound).  Floats are
modelled by rationals; strip frame bounds additionally support the two IEEE
infinities through the EFrame type, whose order and equality agree with the
IEEE comparisons on non-NaN values.  External collaborators (RNA property
resolution, curve evaluation, key insertion) are modelled as explicit
parameters or as small functions over the property-store model, following
the capability contracts of the specification.
-/

/-- Frame time as stored in a strip: a float that is either finite or one of
the two IEEE infinities (NaN never arises in this core). -/
inductive EFrame where
  | negInf : EFrame
  | fin : Rat → EFrame
  | posInf : EFrame
deriving DecidableEq

/-- IEEE comparison on non-NaN floats, restricted to the values of EFrame. -/
def EFrame.le : EFrame → EFrame → Bool
  | .negInf, _ => true
  | .fin a, .fin b => decide (a ≤ b)
  | _, .posInf => true
  | _, _ => false

/-- Property identifier: RNA path plus array index (PropIdentifier in
evaluation.cc). -/
structure PropIdentifier where
  rna_path : String
  array_index : Int
deriving DecidableEq

/-- A resolved RNA write location.  The host reflection system is out of
scope; resolving a path against the property store succeeds exactly when the
store exposes the property, and the resolved location is the identifier
itself. -/
abbrev PathResolvedRNA := PropIdentifier

/-- The animated data-block as the evaluator sees it: a finite store of
scalar properties, standing in for the RNA-reflected object. -/
abbrev AnimatedID := List (PropIdentifier × Rat)

/-- BKE_animsys_rna_path_resolve: succeeds iff the object exposes the
property, returning its location. -/
def rna_path_resolve (obj : AnimatedID) (path : String) (idx : Int) :
    Option PathResolvedRNA :=
  if (obj.find? (fun e => decide (e.1 = PropIdentifier.mk path idx))).isSome then
    some (PropIdentifier.mk path idx)
  else
    none

/-- BKE_animsys_write_to_rna_path: writes the scalar at the resolved
location. -/
def write_to_rna_path (loc : PathResolvedRNA) (v : Rat) (obj : AnimatedID) :
    AnimatedID :=
  obj.map (fun e => if e.1 = loc then (e.1, v) else e)

/-- Reads one property of the object (used only to state theorems). -/
def lookup_prop (obj : AnimatedID) (k : PropIdentifier) : Option Rat :=
  (obj.find? (fun e => decide (e.1 = k))).map (fun e => e.2)

/-- FCurve: flag bits are split into named booleans; keys is the list of
(time, value) control points, managed by the external curve subsystem. -/
structure FCurve where
  rna_path : String
  array_index : Int
  flag_visible : Bool
  flag_selected : Bool
  flag_active : Bool
  flag_muted : Bool
  flag_disabled : Bool
  flag_protected : Bool
  auto_smoothing : Nat
  keys : List (Rat × Rat)
deriving DecidableEq

/-- is_fcurve_evaluatable (evaluation.cc): not muted or disabled, and not
empty. -/
def is_fcurve_evaluatable (fcu : FCurve) : Bool :=
  !(fcu.flag_muted || fcu.flag_disabled) && !fcu.keys.isEmpty

/-- Modelled from the spec: BKE_fcurve_is_keyframable lives in the external
curve subsystem; per the spec it is a per-curve keyable flag external
collaborators may set.  Freshly created curves carry only the visible,
selected and (possibly) active flags and are therefore keyable. -/
def BKE_fcurve_is_keyframable (fcu : FCurve) : Bool :=
  !fcu.flag_protected

/-- AnimationChannelsForOutput: the curves of one output within one strip. -/
structure ChannelsForOutput where
  output_stable_index : Int
  fcurve_array : List FCurve
deriving DecidableEq

/-- KeyframeAnimationStrip payload: the channel groups, keyed by output
stable index. -/
structure KeyframeStrip where
  channels_for_output_array : List ChannelsForOutput
deriving DecidableEq

/-- The strip variants as a closed sum (eAnimationStrip_type dispatch);
ANIM_STRIP_TYPE_KEYFRAME is the only variant. -/
inductive StripData where
  | keyframe : KeyframeStrip → StripData
deriving DecidableEq

/-- AnimationStrip: frame range (closed, possibly infinite), evaluation-time
offset, identity handle (the heap address in the source), and the variant
payload. -/
structure Strip where
  frame_start : EFrame
  frame_end : EFrame
  frame_offset : Rat
  ptr : Nat
  data : StripData
deriving DecidableEq

/-- eAnimationLayer_MixMode. -/
inductive MixMode where
  | override : MixMode
  | combine : MixMode
  | add : MixMode
  | subtract : MixMode
  | multiply : MixMode
deriving DecidableEq

/-- AnimationLayer. -/
structure Layer where
  name : String
  influence : Rat
  mix_mode : MixMode
  strip_array : List Strip
  ptr : Nat
deriving DecidableEq

/-- AnimationOutput. -/
structure Output where
  stable_index : Int
  name : String
  idtype : Int
deriving DecidableEq

/-- Animation root data-block.  ptr is the identity handle (the address the
side-table AnimData compares against); next_ptr stands in for the allocator
handing out fresh addresses. -/
structure Animation where
  layer_array : List Layer
  layer_active_index : Int
  output_array : List Output
  last_output_stable_index : Int
  ptr : Nat
  next_ptr : Nat
deriving DecidableEq

/-- Per-object side-table (AnimData, an external collaborator): back
reference to the owning Animation (by identity handle), recorded output
stable index and recorded output name. -/
structure AnimData where
  animation : Option Nat
  output_stable_index : Int
  output_name : String
deriving DecidableEq

/-- The identity facts of an animated ID data-block that this core reads:
its name and its type tag (GS of the name in the source). -/
structure IDInfo where
  name : String
  idtype : Int
deriving DecidableEq

/- ----- Strip frame range (animation.cc) ----- -/

/-- Strip::contains_frame. -/
def Strip.contains_frame (strip : Strip) (frame_time : EFrame) : Bool :=
  EFrame.le strip.frame_start frame_time && EFrame.le frame_time strip.frame_end

/-- Strip::is_last_frame (exact float equality in the source). -/
def Strip.is_last_frame (strip : Strip) (frame_time : EFrame) : Bool :=
  decide (strip.frame_end = frame_time)

/-- Strip::resize.  The debug assertions (start before end, only the end at
positive infinity, only the start at negative infinity) are preconditions,
not behavior. -/
def Strip.resize (strip : Strip) (fstart fend : EFrame) : Strip :=
  { strip with frame_start := fstart, frame_end := fend }

/- ----- Animation output management (animation.cc) ----- -/

/-- Animation::output_allocate_ : bumps the stable-index counter and tags
the fresh output with it.  The fatal overflow assert of the source makes the
non-wrapping Int model faithful. -/
def Animation.output_allocate_ (anim : Animation) : Animation × Output :=
  let counter := anim.last_output_stable_index + 1
  ({ anim with last_output_stable_index := counter },
   { stable_index := counter, name := "", idtype := 0 })

/-- Animation::output_add: allocate, then append to the output array. -/
def Animation.output_add (anim : Animation) : Animation × Output :=
  let r := anim.output_allocate_
  ({ r.1 with output_array := r.1.output_array ++ [r.2] }, r.2)

/-- Animation::output_for_stable_index: linear scan, first match. -/
def Animation.output_for_stable_index (anim : Animation) (stable_index : Int) :
    Option Output :=
  anim.output_array.find? (fun out => decide (out.stable_index = stable_index))

/-- Animation::output_find_by_name: linear scan, exact match, first wins. -/
def Animation.output_find_by_name (anim : Animation) (output_name : String) :
    Option Output :=
  anim.output_array.find? (fun out => decide (out.name = output_name))

/-- Output::is_suitable_for: idtype 0 accepts anything, otherwise the types
must agree. -/
def Output.is_suitable_for (out : Output) (animated_id : IDInfo) : Bool :=
  decide (out.idtype = 0) || decide (out.idtype = animated_id.idtype)

/-- Animation::find_suitable_output_for, transcribed with its early
returns: stable index (only when the side-table records this very
Animation), then the recorded output name when non-empty, then the ID name;
every candidate must also be suitable. -/
def Animation.find_suitable_output_for (anim : Animation) (adt : Option AnimData)
    (animated_id : IDInfo) : Option Output :=
  let try1 : Option Output :=
    match adt with
    | some d =>
      if d.animation = some anim.ptr then
        match anim.output_for_stable_index d.output_stable_index with
        | some out => if out.is_suitable_for animated_id then some out else none
        | none => none
      else none
    | none => none
  match try1 with
  | some out => some out
  | none =>
    let try2 : Option Output :=
      match adt with
      | some d =>
        if d.output_name ≠ "" then
          match anim.output_find_by_name d.output_name with
          | some out => if out.is_suitable_for animated_id then some out else none
          | none => none
        else none
      | none => none
    match try2 with
    | some out => some out
    | none =>
      match anim.output_find_by_name animated_id.name with
      | some out => if out.is_suitable_for animated_id then some out else none
      | none => none

/- ----- Animation layer management (animation.cc) ----- -/

/-- Animation::layer_add: allocate a layer with the DNA defaults (influence
1.0, override mix, no strips), append it, and make it the active layer. -/
def Animation.layer_add (anim : Animation) (name : String) : Animation × Layer :=
  let new_layer : Layer :=
    { name := name, influence := 1, mix_mode := .override, strip_array := [],
      ptr := anim.next_ptr }
  let layer_array := anim.layer_array ++ [new_layer]
  ({ anim with layer_array := layer_array,
               layer_active_index := (layer_array.length : Int) - 1,
               next_ptr := anim.next_ptr + 1 },
   new_layer)

/-- Animation::find_layer_index: pointer-identity scan. -/
def Animation.find_layer_index (anim : Animation) (layer : Layer) : Option Nat :=
  anim.layer_array.findIdx? (fun visit => decide (visit.ptr = layer.ptr))

/-- Animation::layer_remove: identity search; on a miss return false with no
side effect, otherwise compact the array over the removed slot and return
true. -/
def Animation.layer_remove (anim : Animation) (layer_to_remove : Layer) :
    Bool × Animation :=
  match anim.find_layer_index layer_to_remove with
  | none => (false, anim)
  | some i => (true, { anim with layer_array := anim.layer_array.eraseIdx i })

/-- Layer::strip_add: allocate an infinite strip of the given variant with
zero offset and append it. -/
def Layer.strip_add (layer : Layer) (fresh_ptr : Nat) : Layer × Strip :=
  let strip : Strip :=
    { frame_start := .negInf, frame_end := .posInf, frame_offset := 0,
      ptr := fresh_ptr, data := .keyframe { channels_for_output_array := [] } }
  ({ layer with strip_array := layer.strip_array ++ [strip] }, strip)

/-- Layer::find_strip_index: pointer-identity scan. -/
def Layer.find_strip_index (layer : Layer) (strip : Strip) : Option Nat :=
  layer.strip_array.findIdx? (fun visit => decide (visit.ptr = strip.ptr))

/-- Layer::strip_remove: same pattern as layer_remove. -/
def Layer.strip_remove (layer : Layer) (strip_to_remove : Strip) : Bool × Layer :=
  match layer.find_strip_index strip_to_remove with
  | none => (false, layer)
  | some i => (true, { layer with strip_array := layer.strip_array.eraseIdx i })

/-- A concrete strip over the closed frame range from 1 to 2. -/
def strip_1_2 : Strip :=
  { frame_start := .fin 1, frame_end := .fin 2, frame_offset := 0,
    ptr := 0, data := .keyframe { channels_for_output_array := [] } }

/-- A fresh Animation data-block: created empty, stable-index counter 0. -/
def Animation.empty (ptr : Nat) : Animation :=
  { layer_array := [], layer_active_index := -1, output_array := [],
    last_output_stable_index := 0, ptr := ptr, next_ptr := 0 }

/-- The Animation obtained by n output_add calls on a fresh Animation. -/
def output_add_iter (ptr : Nat) : Nat → Animation
  | 0 => Animation.empty ptr
  | n + 1 => (output_add_iter ptr n).output_add.1

/-- A bare layer with the given name and identity handle. -/
def bare_layer (nm : String) (p : Nat) : Layer :=
  { name := nm, influence := 1, mix_mode := .override, strip_array := [],
    ptr := p }

/-- An animation holding the three layers A, B, C. -/
def anim_abc : Animation :=
  { layer_array := [bare_layer "A" 1, bare_layer "B" 2, bare_layer "C" 3],
    layer_active_index := 2, output_array := [],
    last_output_stable_index := 0, ptr := 0, next_ptr := 4 }

/-- A strip owned by nobody in anim_abc. -/
def stray_strip : Strip :=
  { frame_start := .negInf, frame_end := .posInf, frame_offset := 0, ptr := 9,
    data := .keyframe { channels_for_output_array := [] } }

/- ----- C8: output resolution order ----- -/

/-- Keeps an output candidate only when it is suitable for the animated ID
(the acceptance test applied at every resolution step). -/
def suitable_only (animated_id : IDInfo) (out : Option Output) : Option Output :=
  out.bind (fun o => if o.is_suitable_for animated_id then some o else none)

/-- The output recorded by stable index in the side-table, honoured only
when the side-table records this very Animation. -/
def output_by_recorded_index (anim : Animation) (adt : Option AnimData) :
    Option Output :=
  match adt with
  | some d =>
    if d.animation = some anim.ptr then
      anim.output_for_stable_index d.output_stable_index
    else none
  | none => none

/-- The output found by the side-table's recorded output name, honoured only
when that name is non-empty. -/
def output_by_recorded_name (anim : Animation) (adt : Option AnimData) :
    Option Output :=
  match adt with
  | some d =>
    if d.output_name ≠ "" then anim.output_find_by_name d.output_name else none
  | none => none

/-- The resolution order exactly as claim C8 words it: recorded stable index
(only when this Animation is recorded), then recorded name (when non-empty),
then the ID's own name; each candidate is accepted only when suitable, and
the first acceptance wins. -/
def find_suitable_output_spec (anim : Animation) (adt : Option AnimData)
    (animated_id : IDInfo) : Option Output :=
  (suitable_only animated_id (output_by_recorded_index anim adt)).orElse fun _ =>
    (suitable_only animated_id (output_by_recorded_name anim adt)).orElse fun _ =>
      suitable_only animated_id (anim.output_find_by_name animated_id.name)

/- ----- Evaluation engine (evaluation.cc) ----- -/

/-- AnimatedProperty: an evaluated value paired with its resolved write
location. -/
structure AnimatedProperty where
  value : Rat
  prop_rna : PathResolvedRNA
deriving DecidableEq

/-- EvaluationResult: the mapping from property identifier to evaluated
property.  The hash map of the source is modelled as an association list
whose keys are unique by construction (Map::add never overwrites). -/
abbrev EvaluationResult := List (PropIdentifier × AnimatedProperty)

/-- EvaluationResult::store, with the semantics of Map::add: a new entry is
recorded only when the key is not yet present. -/
def EvaluationResult.store (r : EvaluationResult) (path : String) (idx : Int)
    (v : Rat) (loc : PathResolvedRNA) : EvaluationResult :=
  if (r.find? (fun e => decide (e.1 = PropIdentifier.mk path idx))).isSome then r
  else r ++ [(PropIdentifier.mk path idx, { value := v, prop_rna := loc })]

/-- EvaluationResult::lookup_ptr. -/
def EvaluationResult.lookup_ptr (r : EvaluationResult) (k : PropIdentifier) :
    Option AnimatedProperty :=
  (r.find? (fun e => decide (e.1 = k))).map (fun e => e.2)

/-- In-place mutation through the pointer returned by lookup_ptr: the first
entry with the given key has its value rewritten; prop_rna is untouched. -/
def EvaluationResult.update_value (r : EvaluationResult) (k : PropIdentifier)
    (f : Rat → Rat) : EvaluationResult :=
  match r with
  | [] => []
  | e :: rest =>
    if e.1 = k then (e.1, { value := f e.2.value, prop_rna := e.2.prop_rna }) :: rest
    else e :: EvaluationResult.update_value rest k f

/-- lerp (evaluation.cc). -/
def lerp (t a b : Rat) : Rat :=
  a + t * (b - a)

/-- The loop body of blend_layer_results: an entry whose key the accumulated
result does not know is stored scaled by the influence, otherwise the
accumulated value is combined in place according to the mix mode of the
current layer. -/
def blend_step (current_layer : Layer) (blend : EvaluationResult)
    (channel_result : PropIdentifier × AnimatedProperty) : EvaluationResult :=
  let prop_ident := channel_result.1
  let anim_prop := channel_result.2
  match EvaluationResult.lookup_ptr blend prop_ident with
  | none =>
    EvaluationResult.store blend prop_ident.rna_path prop_ident.array_index
      (anim_prop.value * current_layer.influence) anim_prop.prop_rna
  | some _ =>
    match current_layer.mix_mode with
    | .override => EvaluationResult.update_value blend prop_ident
        (fun _ => anim_prop.value * current_layer.influence)
    | .combine => EvaluationResult.update_value blend prop_ident
        (fun last => lerp current_layer.influence last anim_prop.value)
    | .add => EvaluationResult.update_value blend prop_ident
        (fun last => last + anim_prop.value * current_layer.influence)
    | .subtract => EvaluationResult.update_value blend prop_ident
        (fun last => last - anim_prop.value * current_layer.influence)
    | .multiply => EvaluationResult.update_value blend prop_ident
        (fun last => last * (anim_prop.value * current_layer.influence))

/-- blend_layer_results: walk the entries of the current layer result and
fold them into a copy of the last result through blend_step. -/
def blend_layer_results (last_result current_result : EvaluationResult)
    (current_layer : Layer) : EvaluationResult :=
  current_result.foldl (blend_step current_layer) last_result

/-- The curve loop of evaluate_keyframe_strip: each evaluatable curve whose
path resolves against the object contributes one stored entry.  The object
is threaded through to make the non-mutation of the animated ID a provable
statement rather than a typing accident; the curve math itself is the
external collaborator calculate_fcurve. -/
def evaluate_fcurves (calculate_fcurve : FCurve → Rat → Rat) (obj : AnimatedID)
    (fcurves : List FCurve) (eval_time : Rat)
    (evaluation_result : EvaluationResult) : EvaluationResult × AnimatedID :=
  match fcurves with
  | [] => (evaluation_result, obj)
  | fcu :: rest =>
    if !(is_fcurve_evaluatable fcu) then
      evaluate_fcurves calculate_fcurve obj rest eval_time evaluation_result
    else
      match rna_path_resolve obj fcu.rna_path fcu.array_index with
      | none => evaluate_fcurves calculate_fcurve obj rest eval_time evaluation_result
      | some anim_rna =>
        let curval := calculate_fcurve fcu eval_time
        evaluate_fcurves calculate_fcurve obj rest eval_time
          (EvaluationResult.store evaluation_result fcu.rna_path fcu.array_index
            curval anim_rna)

/-- evaluate_keyframe_strip: no channel group for the output yields no
result; otherwise the channel group's curves are evaluated into a (possibly
empty) result. -/
def evaluate_keyframe_strip (calculate_fcurve : FCurve → Rat → Rat)
    (obj : AnimatedID) (key_strip : KeyframeStrip) (output_index : Int)
    (eval_time : Rat) : Option EvaluationResult × AnimatedID :=
  match key_strip.channels_for_output_array.find?
      (fun ch => decide (ch.output_stable_index = output_index)) with
  | none => (none, obj)
  | some chans_for_out =>
    let folded := evaluate_fcurves calculate_fcurve obj chans_for_out.fcurve_array
      eval_time []
    (some folded.1, folded.2)

/-- evaluate_strip: shift the evaluation time left by the frame offset and
dispatch on the strip variant. -/
def evaluate_strip (calculate_fcurve : FCurve → Rat → Rat) (obj : AnimatedID)
    (strip : Strip) (output_index : Int) (eval_time : Rat) :
    Option EvaluationResult × AnimatedID :=
  let offset_eval_time := eval_time - strip.frame_offset
  match strip.data with
  | .keyframe key_strip =>
    evaluate_keyframe_strip calculate_fcurve obj key_strip output_index offset_eval_time

/-- The strip loop of evaluate_layer: skip strips not containing the time;
the first strip that contains it and produces a result ends the scan. -/
def evaluate_layer_strips (calculate_fcurve : FCurve → Rat → Rat)
    (obj : AnimatedID) (strips : List Strip) (output_index : Int)
    (eval_time : Rat) : Option EvaluationResult × AnimatedID :=
  match strips with
  | [] => (none, obj)
  | strip :: rest =>
    if !(strip.contains_frame (.fin eval_time)) then
      evaluate_layer_strips calculate_fcurve obj rest output_index eval_time
    else
      match evaluate_strip calculate_fcurve obj strip output_index eval_time with
      | (none, obj2) =>
        evaluate_layer_strips calculate_fcurve obj2 rest output_index eval_time
      | (some strip_result, obj2) => (some strip_result, obj2)

/-- evaluate_layer. -/
def evaluate_layer (calculate_fcurve : FCurve → Rat → Rat) (obj : AnimatedID)
    (layer : Layer) (output_index : Int) (eval_time : Rat) :
    Option EvaluationResult × AnimatedID :=
  evaluate_layer_strips calculate_fcurve obj layer.strip_array output_index eval_time

/-- The layer loop of evaluate_animation: layers without influence are
skipped, a layer producing no result is skipped, the first result is taken
as is, and every later result is blended into the accumulator. -/
def evaluate_anim_layers (calculate_fcurve : FCurve → Rat → Rat)
    (obj : AnimatedID) (layers : List Layer) (output_index : Int)
    (eval_time : Rat) (last_result : Option EvaluationResult) :
    Option EvaluationResult × AnimatedID :=
  match layers with
  | [] => (last_result, obj)
  | layer :: rest =>
    if layer.influence ≤ 0 then
      evaluate_anim_layers calculate_fcurve obj rest output_index eval_time last_result
    else
      match evaluate_layer calculate_fcurve obj layer output_index eval_time with
      | (none, obj2) =>
        evaluate_anim_layers calculate_fcurve obj2 rest output_index eval_time last_result
      | (some layer_result, obj2) =>
        match last_result with
        | none =>
          evaluate_anim_layers calculate_fcurve obj2 rest output_index eval_time
            (some layer_result)
        | some prev =>
          evaluate_anim_layers calculate_fcurve obj2 rest output_index eval_time
            (some (blend_layer_results prev layer_result layer))

/-- apply_evaluation_result: writes every entry of the final result to its
resolved location, in iteration order, returning the updated object together
with the ordered trace of written locations.  (flush_to_original writes the
same values to the separate original data-block, an out-of-scope
collaborator.) -/
def apply_evaluation_result (evaluation_result : EvaluationResult)
    (obj : AnimatedID) : AnimatedID × List PathResolvedRNA :=
  match evaluation_result with
  | [] => (obj, [])
  | channel_result :: rest =>
    let written := write_to_rna_path channel_result.2.prop_rna
      channel_result.2.value obj
    let applied := apply_evaluation_result rest written
    (applied.1, channel_result.2.prop_rna :: applied.2)

/-- evaluate_animation: accumulate the layers, then apply the final blended
result to the object (when there is one). -/
def evaluate_animation (calculate_fcurve : FCurve → Rat → Rat) (obj : AnimatedID)
    (anim : Animation) (output_index : Int) (eval_time : Rat) :
    AnimatedID × List PathResolvedRNA :=
  match evaluate_anim_layers calculate_fcurve obj anim.layer_array output_index
      eval_time none with
  | (none, obj2) => (obj2, [])
  | (some last_result, obj2) => apply_evaluation_result last_result obj2

/-- The scalar combination rule of one mix mode (the switch inside
blend_layer_results, factored for stating theorems). -/
def mix_value (mode : MixMode) (influence last cur : Rat) : Rat :=
  match mode with
  | .override => cur * influence
  | .combine => lerp influence last cur
  | .add => last + cur * influence
  | .subtract => last - cur * influence
  | .multiply => last * (cur * influence)

/-- The strip selection exactly as claim C4 words it: the first strip whose
range contains the time is evaluated and its result returned immediately,
without considering any later strip. -/
def evaluate_layer_claimC4 (cf : FCurve → Rat → Rat) (obj : AnimatedID)
    (layer : Layer) (oi : Int) (t : Rat) : Option EvaluationResult :=
  match layer.strip_array.find? (fun strip => strip.contains_frame (.fin t)) with
  | none => none
  | some strip => (evaluate_strip cf obj strip oi t).1

/-- A property identifier used by the concrete evaluation scenarios. -/
def sample_loc : PropIdentifier :=
  { rna_path := "location", array_index := 0 }

/-- A plain keyed curve on location[0]. -/
def sample_fcu : FCurve :=
  { rna_path := "location", array_index := 0, flag_visible := true,
    flag_selected := true, flag_active := true, flag_muted := false,
    flag_disabled := false, flag_protected := false, auto_smoothing := 0,
    keys := [(0, 4)] }

/-- An object exposing location[0] with value 3. -/
def sample_obj : AnimatedID := [(sample_loc, 3)]

/-- A curve evaluator returning the constant 4 (the curve math is an
external collaborator, so any function is a legitimate instance). -/
def const4 : FCurve → Rat → Rat := fun _ _ => 4

/-- An unbounded keyframe strip with the given identity and channels. -/
def infinite_keyframe_strip (p : Nat) (channels : List ChannelsForOutput) : Strip :=
  { frame_start := .negInf, frame_end := .posInf, frame_offset := 0, ptr := p,
    data := .keyframe { channels_for_output_array := channels } }

/-- Two overlapping strips: the first has no channel group for output 1, the
second animates location[0]. -/
def c4_layer : Layer :=
  { name := "L", influence := 1, mix_mode := .override,
    strip_array :=
      [infinite_keyframe_strip 1 [],
       infinite_keyframe_strip 2
         [{ output_stable_index := 1, fcurve_array := [sample_fcu] }]],
    ptr := 10 }

/- ----- C3: layer accumulation ----- -/

/-- The contributing layers of one evaluation pass: layers with positive
influence whose evaluation produces a result (possibly one with no
properties), paired with that result, in layer order. -/
def contributing_layer_results (cf : FCurve → Rat → Rat) (obj : AnimatedID)
    (layers : List Layer) (oi : Int) (t : Rat) :
    List (EvaluationResult × Layer) :=
  layers.filterMap (fun layer =>
    if layer.influence ≤ 0 then none
    else ((evaluate_layer cf obj layer oi t).1).map (fun r => (r, layer)))

/-- The layer accumulation exactly as claim C3 words it: a layer whose
result is empty (no properties) is skipped, and the first layer yielding a
non-empty result is taken verbatim. -/
def evaluate_anim_layers_claimC3 (cf : FCurve → Rat → Rat) (obj : AnimatedID)
    (layers : List Layer) (oi : Int) (t : Rat) : Option EvaluationResult :=
  layers.foldl
    (fun last layer =>
      if layer.influence ≤ 0 then last
      else
        match (evaluate_layer cf obj layer oi t).1 with
        | none => last
        | some r =>
          if r = [] then last
          else
            match last with
            | none => some r
            | some prev => some (blend_layer_results prev r layer))
    none

/-- A layer whose only strip carries a channel group for output 1 with no
curves: it evaluates to an engaged result holding no properties. -/
def c3_layer1 : Layer :=
  { name := "L1", influence := 1, mix_mode := .override,
    strip_array :=
      [infinite_keyframe_strip 1 [{ output_stable_index := 1, fcurve_array := [] }]],
    ptr := 11 }

/-- A layer with influence one half in Add mode whose strip animates
location[0]. -/
def c3_layer2 : Layer :=
  { name := "L2", influence := mkRat 1 2, mix_mode := .add,
    strip_array :=
      [infinite_keyframe_strip 2
        [{ output_stable_index := 1, fcurve_array := [sample_fcu] }]],
    ptr := 12 }

/- ----- C1: evaluation does not mutate, apply writes each property once ----- -/

/-- The invariant every EvaluationResult produced by the pipeline satisfies:
its keys are pairwise distinct (the hash-map invariant) and every entry's
resolved location is its own identifier (what path resolution produced). -/
def result_good (r : EvaluationResult) : Prop :=
  (r.map Prod.fst).Nodup ∧ ∀ e ∈ r, e.2.prop_rna = e.1

/-- A one-layer animation animating location[0] of output 1. -/
def c1_anim : Animation :=
  { layer_array :=
      [{ name := "L", influence := 1, mix_mode := .override,
         strip_array :=
           [infinite_keyframe_strip 3
             [{ output_stable_index := 1, fcurve_array := [sample_fcu] }]],
         ptr := 13 }],
    layer_active_index := 0, output_array := [], last_output_stable_index := 1,
    ptr := 0, next_ptr := 14 }

/-- An object exposing location[0] (value 3) and rotation_euler[1]
(value 7). -/
def c1_obj : AnimatedID :=
  [(sample_loc, 3), ({ rna_path := "rotation_euler", array_index := 1 }, 7)]

/- ----- KeyframeStrip channel and curve management (animation.cc) ----- -/

/-- Replaces the first element satisfying p by its image under f (the model
of mutating through a pointer obtained from a linear scan). -/
def list_update_first {α : Type} (p : α → Bool) (f : α → α) : List α → List α
  | [] => []
  | x :: xs => if p x then f x :: xs else x :: list_update_first p f xs

/-- KeyframeStrip::chans_for_out (const query): linear scan by output stable
index, none when absent. -/
def KeyframeStrip.chans_for_out (ks : KeyframeStrip) (output_stable_index : Int) :
    Option ChannelsForOutput :=
  ks.channels_for_output_array.find?
    (fun ch => decide (ch.output_stable_index = output_stable_index))

/-- KeyframeStrip::chans_for_out_add: appends a fresh empty channel group
tagged with the output stable index. -/
def KeyframeStrip.chans_for_out_add (ks : KeyframeStrip)
    (output_stable_index : Int) : KeyframeStrip × ChannelsForOutput :=
  let channels : ChannelsForOutput :=
    { output_stable_index := output_stable_index, fcurve_array := [] }
  ({ channels_for_output_array := ks.channels_for_output_array ++ [channels] },
   channels)

/-- The curve match test of fcurve_find: the array index is compared before
the path (the cheap filter before the string comparison). -/
def fcurve_matches (rna_path : String) (array_index : Int) (fcu : FCurve) : Bool :=
  decide (fcu.array_index = array_index) && decide (fcu.rna_path = rna_path)

/-- KeyframeStrip::fcurve_find: requires an existing channel group, then
scans it with fcurve_matches. -/
def KeyframeStrip.fcurve_find (ks : KeyframeStrip) (output_stable_index : Int)
    (rna_path : String) (array_index : Int) : Option FCurve :=
  match ks.chans_for_out output_stable_index with
  | none => none
  | some channels =>
    channels.fcurve_array.find? (fcurve_matches rna_path array_index)

/-- The fields of a freshly created curve (BKE_fcurve_create plus the flag
and smoothing setup in fcurve_find_or_create); auto_smoothing_new is the
host preference U.auto_smoothing_new, passed in by the caller. -/
def fresh_fcurve (rna_path : String) (array_index : Int)
    (auto_smoothing_new : Nat) : FCurve :=
  { rna_path := rna_path, array_index := array_index, flag_visible := true,
    flag_selected := true, flag_active := false, flag_muted := false,
    flag_disabled := false, flag_protected := false,
    auto_smoothing := auto_smoothing_new, keys := [] }

/-- KeyframeStrip::fcurve_find_or_create: return the curve when found, else
create one (active iff its group holds no other curve), lazily creating the
channel group, and append it to the group. -/
def KeyframeStrip.fcurve_find_or_create (ks : KeyframeStrip)
    (output_stable_index : Int) (rna_path : String) (array_index : Int)
    (auto_smoothing_new : Nat) : KeyframeStrip × FCurve :=
  match ks.fcurve_find output_stable_index rna_path array_index with
  | some fcurve => (ks, fcurve)
  | none =>
    let base := fresh_fcurve rna_path array_index auto_smoothing_new
    match ks.chans_for_out output_stable_index with
    | some channels =>
      let fcurve := if channels.fcurve_array.length = 0 then
          { base with flag_active := true }
        else base
      ({ channels_for_output_array :=
          list_update_first
            (fun ch => decide (ch.output_stable_index = output_stable_index))
            (fun ch => { ch with fcurve_array := ch.fcurve_array ++ [fcurve] })
            ks.channels_for_output_array },
       fcurve)
    | none =>
      let fcurve := { base with flag_active := true }
      ({ channels_for_output_array := ks.channels_for_output_array
          ++ [{ output_stable_index := output_stable_index,
                fcurve_array := [fcurve] }] },
       fcurve)

/-- Writing the curve mutated by insert_vert_fcurve back into the strip: the
first curve matching (array index, path) in the output's channel group is
replaced. -/
def KeyframeStrip.replace_first_fcurve (ks : KeyframeStrip)
    (output_stable_index : Int) (rna_path : String) (array_index : Int)
    (fcurve2 : FCurve) : KeyframeStrip :=
  { channels_for_output_array :=
      list_update_first
        (fun ch => decide (ch.output_stable_index = output_stable_index))
        (fun ch =>
          { ch with fcurve_array :=
              (list_update_first (fcurve_matches rna_path array_index)
                (fun _ => fcurve2) ch.fcurve_array) })
        ks.channels_for_output_array }

/-- KeyframeStrip::keyframe_insert.  The external primitive
insert_vert_fcurve is a parameter: it receives the curve, the (time, value)
pair and the opaque keyframe settings, and returns the mutated curve
together with the index of the inserted key, negative on failure.  The
output is identified by its stable index.  Failure returns the none
sentinel after the diagnostic message (output only, not modelled). -/
def KeyframeStrip.keyframe_insert
    (insert_vert_fcurve : FCurve → Rat × Rat → Int → FCurve × Int)
    (ks : KeyframeStrip) (output_stable_index : Int) (rna_path : String)
    (array_index : Int) (time_value : Rat × Rat) (settings : Int)
    (auto_smoothing_new : Nat) : Option FCurve × KeyframeStrip :=
  let foc := ks.fcurve_find_or_create output_stable_index rna_path array_index
    auto_smoothing_new
  let fcurve := foc.2
  if !(BKE_fcurve_is_keyframable fcurve) then (none, foc.1)
  else
    let r := insert_vert_fcurve fcurve time_value settings
    let ks2 := KeyframeStrip.replace_first_fcurve foc.1 output_stable_index
      rna_path array_index r.1
    if r.2 < 0 then (none, ks2) else (some r.1, ks2)

/-- A pre-existing curve on location[0] that refuses new keys. -/
def protected_fcu : FCurve :=
  { rna_path := "location", array_index := 0, flag_visible := true,
    flag_selected := true, flag_active := true, flag_muted := false,
    flag_disabled := false, flag_protected := true, auto_smoothing := 0,
    keys := [(1, 5)] }

/-- A strip already holding the protected curve for output 1. -/
def protected_strip : KeyframeStrip :=
  { channels_for_output_array :=
      [{ output_stable_index := 1, fcurve_array := [protected_fcu] }] }

/- ---------------------------------------------------------------------- -/
/- Theorems. -/
/- ---------------------------------------------------------------------- -/

/- ----- Strip frame bounds (C9) ----- -/

/-- C9: for every strip with frame_start at most frame_end and every time t,
contains_frame t holds iff frame_start <= t <= frame_end (closed interval),
and is_last_frame t holds iff t equals frame_end exactly; a strip resized to
the interval from negative to positive infinity contains every finite time
and satisfies is_last_frame at positive infinity. -/
theorem claim_C9_strip_frame_bounds (strip : Strip) (t : EFrame) (q : Rat)
    (h : EFrame.le strip.frame_start strip.frame_end = true) :
    (strip.contains_frame t = true ↔
      (EFrame.le strip.frame_start t = true ∧ EFrame.le t strip.frame_end = true))
    ∧ (strip.is_last_frame t = true ↔ strip.frame_end = t)
    ∧ (strip.resize .negInf .posInf).contains_frame (.fin q) = true
    ∧ (strip.resize .negInf .posInf).is_last_frame .posInf = true := by
  refine ⟨?_, ?_, ?_, ?_⟩
  · simp [Strip.contains_frame]
  · simp [Strip.is_last_frame]
  · simp [Strip.contains_frame, Strip.resize, EFrame.le]
  · simp [Strip.is_last_frame, Strip.resize]

/-- Witness for C9 at the concrete strip over the range from 1 to 2. -/
theorem claim_C9_witness :
    strip_1_2.contains_frame (.fin (mkRat 3 2)) = true ∧
      (strip_1_2.resize .negInf .posInf).contains_frame (.fin 5) = true := by
  have h := claim_C9_strip_frame_bounds strip_1_2 (.fin (mkRat 3 2)) 5 (by decide)
  exact ⟨h.1.mpr ⟨by decide, by decide⟩, h.2.2.1⟩

/-- C10 (implicit): layer_add appends the new layer and, as a side effect,
makes it the active layer by setting layer_active_index to the new layer
count minus one. -/
theorem claim_C10_layer_add_sets_active_index (anim : Animation) (name : String) :
    let r := anim.layer_add name
    r.1.layer_array = anim.layer_array ++ [r.2]
    ∧ r.1.layer_active_index = (r.1.layer_array.length : Int) - 1
    ∧ r.2.name = name ∧ r.2.influence = 1 ∧ r.2.strip_array = [] := by
  exact ⟨rfl, rfl, rfl, rfl, rfl⟩

theorem output_add_iter_spec (ptr n : Nat) :
    (output_add_iter ptr n).output_array.map Output.stable_index
        = (List.range' 1 n).map Int.ofNat
    ∧ (output_add_iter ptr n).last_output_stable_index = n := by
  induction n with
  | zero => exact ⟨rfl, rfl⟩
  | succ n ih =>
    obtain ⟨h1, h2⟩ := ih
    constructor
    · show ((output_add_iter ptr n).output_array ++ [_]).map Output.stable_index = _
      rw [List.range'_concat, List.map_append, List.map_append, h1]
      congr 1
      simp only [Animation.output_allocate_, List.map_cons, List.map_nil, h2,
        Int.ofNat_eq_coe, List.cons.injEq, and_true]
      omega
    · show (output_add_iter ptr n).last_output_stable_index + 1 = _
      rw [h2]
      omega

/-- C6: every sequence of output_add calls on one Animation yields outputs
whose stable indices are nonzero, pairwise distinct, strictly increasing in
creation order, and each new index is the incremented
last_output_stable_index counter. -/
theorem claim_C6_output_stable_index_unique (ptr n : Nat) :
    ((output_add_iter ptr n).output_array.map Output.stable_index
      = (List.range' 1 n).map Int.ofNat)
    ∧ (∀ out ∈ (output_add_iter ptr n).output_array, out.stable_index ≠ 0)
    ∧ ((output_add_iter ptr n).output_array.map Output.stable_index).Nodup
    ∧ List.Pairwise (fun a b => a < b)
        ((output_add_iter ptr n).output_array.map Output.stable_index)
    ∧ (output_add_iter ptr n).output_add.2.stable_index
      = (output_add_iter ptr n).last_output_stable_index + 1 := by
  set anim := output_add_iter ptr n with hanim
  obtain ⟨h1, h2⟩ := output_add_iter_spec ptr n
  have hpair : List.Pairwise (fun a b => a < b)
      (anim.output_array.map Output.stable_index) := by
    rw [h1]
    exact List.Pairwise.map Int.ofNat (fun a b hab => Int.ofNat_lt.mpr hab)
      (List.pairwise_lt_range' 1 n)
  refine ⟨h1, ?_, hpair.nodup, hpair, rfl⟩
  intro out hout
  have hmem : out.stable_index ∈ (List.range' 1 n).map Int.ofNat := by
    rw [← h1]
    exact List.mem_map_of_mem Output.stable_index hout
  obtain ⟨k, hk, hke⟩ := List.mem_map.mp hmem
  obtain ⟨i, hi, hei⟩ := List.mem_range'.mp hk
  rw [← hke, Int.ofNat_eq_coe]
  omega

theorem findIdx?_append_cons {α : Type} (p : α → Bool) (pre post : List α) (a : α)
    (hpre : ∀ x ∈ pre, p x = false) (ha : p a = true) (i : Nat) :
    (pre ++ a :: post).findIdx? p i = some (i + pre.length) := by
  induction pre generalizing i with
  | nil => simp [ha]
  | cons x xs ih =>
    have hx : p x = false := hpre x (List.mem_cons_self x xs)
    have hxs : ∀ y ∈ xs, p y = false := fun y hy => hpre y (List.mem_cons_of_mem x hy)
    simp only [List.cons_append, List.findIdx?_cons, hx, Bool.false_eq_true, if_false,
      ih hxs (i + 1), List.length_cons]
    congr 1
    omega

theorem eraseIdx_append_cons {α : Type} (pre post : List α) (a : α) :
    (pre ++ a :: post).eraseIdx pre.length = pre ++ post := by
  induction pre with
  | nil => rfl
  | cons x xs ih => simpa using ih

/-- C7: layer_remove and strip_remove return false and leave the container
untouched when the element is not owned by it, and otherwise remove exactly
that element, compacting the later elements left, and return true. -/
theorem claim_C7_remove_compaction (anim : Animation) (layer : Layer)
    (ly : Layer) (strip : Strip) :
    ((∀ x ∈ anim.layer_array, x.ptr ≠ layer.ptr) →
      anim.layer_remove layer = (false, anim))
    ∧ (∀ pre post, anim.layer_array = pre ++ layer :: post →
        (anim.layer_array.map Layer.ptr).Nodup →
        anim.layer_remove layer = (true, { anim with layer_array := pre ++ post }))
    ∧ ((∀ x ∈ ly.strip_array, x.ptr ≠ strip.ptr) →
      ly.strip_remove strip = (false, ly))
    ∧ (∀ pre post, ly.strip_array = pre ++ strip :: post →
        (ly.strip_array.map Strip.ptr).Nodup →
        ly.strip_remove strip = (true, { ly with strip_array := pre ++ post })) := by
  refine ⟨?_, ?_, ?_, ?_⟩
  · intro hno
    have : anim.find_layer_index layer = none := by
      rw [Animation.find_layer_index, List.findIdx?_eq_none_iff]
      intro x hx
      simpa using hno x hx
    simp [Animation.layer_remove, this]
  · intro pre post harr hnd
    have hpre : ∀ x ∈ pre, x.ptr ≠ layer.ptr := by
      rw [harr, List.map_append] at hnd
      have hdisj := (List.nodup_append.mp hnd).2.2
      intro x hx heq
      exact hdisj (a := layer.ptr)
        (heq ▸ List.mem_map_of_mem Layer.ptr hx)
        (by simp)
    have hidx : anim.find_layer_index layer = some pre.length := by
      rw [Animation.find_layer_index, harr]
      have := findIdx?_append_cons (fun visit => decide (visit.ptr = layer.ptr))
        pre post layer (fun x hx => by simpa using hpre x hx) (by simp) 0
      simpa using this
    simp [Animation.layer_remove, hidx, harr, eraseIdx_append_cons]
  · intro hno
    have : ly.find_strip_index strip = none := by
      rw [Layer.find_strip_index, List.findIdx?_eq_none_iff]
      intro x hx
      simpa using hno x hx
    simp [Layer.strip_remove, this]
  · intro pre post harr hnd
    have hpre : ∀ x ∈ pre, x.ptr ≠ strip.ptr := by
      rw [harr, List.map_append] at hnd
      have hdisj := (List.nodup_append.mp hnd).2.2
      intro x hx heq
      exact hdisj (a := strip.ptr)
        (heq ▸ List.mem_map_of_mem Strip.ptr hx)
        (by simp)
    have hidx : ly.find_strip_index strip = some pre.length := by
      rw [Layer.find_strip_index, harr]
      have := findIdx?_append_cons (fun visit => decide (visit.ptr = strip.ptr))
        pre post strip (fun x hx => by simpa using hpre x hx) (by simp) 0
      simpa using this
    simp [Layer.strip_remove, hidx, harr, eraseIdx_append_cons]

/-- Witness for C7: removing B from the layers [A, B, C] yields [A, C] with
result true, and removing a foreign strip from a layer returns false and
leaves it unchanged. -/
theorem claim_C7_witness :
    anim_abc.layer_remove (bare_layer "B" 2)
        = (true, { anim_abc with
            layer_array := [bare_layer "A" 1, bare_layer "C" 3] })
      ∧ (bare_layer "A" 1).strip_remove stray_strip
          = (false, bare_layer "A" 1) := by
  have h := claim_C7_remove_compaction anim_abc (bare_layer "B" 2)
    (bare_layer "A" 1) stray_strip
  exact ⟨h.2.1 [bare_layer "A" 1] [bare_layer "C" 3] rfl (by decide),
    h.2.2.1 (by decide)⟩

/-- C8: find_suitable_output_for resolves in exactly the claimed order,
returning the first candidate that also satisfies is_suitable_for. -/
theorem claim_C8_output_resolution_order (anim : Animation) (adt : Option AnimData)
    (animated_id : IDInfo) :
    anim.find_suitable_output_for adt animated_id
      = find_suitable_output_spec anim adt animated_id := by
  have hfilter : ∀ (o : Option Output),
      (match o with
       | some out => if out.is_suitable_for animated_id = true then some out else none
       | none => none)
      = o.bind (fun out => if out.is_suitable_for animated_id = true then some out
                           else none) := by
    intro o
    cases o <;> rfl
  have horelse : ∀ (x rest : Option Output),
      (match x with | some out => some out | none => rest)
        = x.orElse (fun _ => rest) := by
    intro x rest
    cases x <;> rfl
  rcases adt with _ | d
  · simp [Animation.find_suitable_output_for, find_suitable_output_spec,
      output_by_recorded_index, output_by_recorded_name, suitable_only, hfilter,
      horelse, Option.orElse]
  · by_cases hanim : d.animation = some anim.ptr <;>
      by_cases hnm : d.output_name = "" <;>
        simp [Animation.find_suitable_output_for, find_suitable_output_spec,
          output_by_recorded_index, output_by_recorded_name, suitable_only, hfilter,
          horelse, hanim, hnm, Option.orElse]

/- ----- lemmas about EvaluationResult ----- -/

theorem lookup_ptr_none_iff (r : EvaluationResult) (k : PropIdentifier) :
    EvaluationResult.lookup_ptr r k = none ↔ k ∉ r.map Prod.fst := by
  simp only [EvaluationResult.lookup_ptr, Option.map_eq_none', List.find?_eq_none,
    decide_eq_true_eq, List.mem_map]
  constructor
  · rintro h ⟨e, he, hek⟩
    exact h e he hek
  · intro h e he hek
    exact h ⟨e, he, hek⟩

theorem lookup_ptr_store_ne (r : EvaluationResult) (path : String) (idx : Int)
    (v : Rat) (loc : PathResolvedRNA) (k : PropIdentifier)
    (h : k ≠ PropIdentifier.mk path idx) :
    EvaluationResult.lookup_ptr (EvaluationResult.store r path idx v loc) k
      = EvaluationResult.lookup_ptr r k := by
  unfold EvaluationResult.store
  split
  · rfl
  · unfold EvaluationResult.lookup_ptr
    rw [List.find?_append]
    have hsingle : List.find? (fun e => decide (e.1 = k))
        [(PropIdentifier.mk path idx,
          { value := v, prop_rna := loc : AnimatedProperty })] = none := by
      simp [Ne.symm h]
    rw [hsingle]
    cases List.find? (fun e => decide (e.1 = k)) r <;> rfl

theorem lookup_ptr_store_self (r : EvaluationResult) (path : String) (idx : Int)
    (v : Rat) (loc : PathResolvedRNA)
    (h : EvaluationResult.lookup_ptr r (PropIdentifier.mk path idx) = none) :
    EvaluationResult.lookup_ptr (EvaluationResult.store r path idx v loc)
      (PropIdentifier.mk path idx) = some { value := v, prop_rna := loc } := by
  have hfind : List.find? (fun e => decide (e.1 = PropIdentifier.mk path idx)) r
      = none := by
    unfold EvaluationResult.lookup_ptr at h
    exact Option.map_eq_none'.mp h
  unfold EvaluationResult.store
  rw [hfind]
  simp only [Option.isSome_none, Bool.false_eq_true, if_false]
  unfold EvaluationResult.lookup_ptr
  rw [List.find?_append, hfind]
  simp

theorem lookup_ptr_update_ne (r : EvaluationResult) (k : PropIdentifier)
    (f : Rat → Rat) (k2 : PropIdentifier) (h : k2 ≠ k) :
    EvaluationResult.lookup_ptr (EvaluationResult.update_value r k f) k2
      = EvaluationResult.lookup_ptr r k2 := by
  induction r with
  | nil => rfl
  | cons e rest ih =>
    by_cases hek : e.1 = k
    · have hne2 : ¬(e.1 = k2) := by
        rw [hek]
        exact fun hc => h hc.symm
      simp only [EvaluationResult.update_value, hek, if_true]
      unfold EvaluationResult.lookup_ptr
      rw [List.find?_cons_of_neg _ (by simpa using fun hc : k = k2 => h hc.symm),
        List.find?_cons_of_neg _ (by simpa using hne2)]
    · simp only [EvaluationResult.update_value, hek, if_false]
      by_cases he2 : e.1 = k2
      · unfold EvaluationResult.lookup_ptr
        rw [List.find?_cons_of_pos _ (by simpa using he2),
          List.find?_cons_of_pos _ (by simpa using he2)]
      · unfold EvaluationResult.lookup_ptr
        rw [List.find?_cons_of_neg _ (by simpa using he2),
          List.find?_cons_of_neg _ (by simpa using he2)]
        exact ih

theorem lookup_ptr_update_self (r : EvaluationResult) (k : PropIdentifier)
    (f : Rat → Rat) (p : AnimatedProperty)
    (h : EvaluationResult.lookup_ptr r k = some p) :
    EvaluationResult.lookup_ptr (EvaluationResult.update_value r k f) k
      = some { value := f p.value, prop_rna := p.prop_rna } := by
  induction r with
  | nil => simp [EvaluationResult.lookup_ptr] at h
  | cons e rest ih =>
    by_cases hek : e.1 = k
    · have hp : e.2 = p := by
        unfold EvaluationResult.lookup_ptr at h
        rw [List.find?_cons_of_pos _ (by simpa using hek)] at h
        simpa using h
      simp only [EvaluationResult.update_value, hek, if_true]
      unfold EvaluationResult.lookup_ptr
      rw [List.find?_cons_of_pos _ (by simpa using hek)]
      simp [hp]
    · have hrest : EvaluationResult.lookup_ptr rest k = some p := by
        unfold EvaluationResult.lookup_ptr at h ⊢
        rwa [List.find?_cons_of_neg _ (by simpa using hek)] at h
      simp only [EvaluationResult.update_value, hek, if_false]
      unfold EvaluationResult.lookup_ptr
      rw [List.find?_cons_of_neg _ (by simpa using hek)]
      exact ih hrest

theorem update_value_map_fst (r : EvaluationResult) (k : PropIdentifier)
    (f : Rat → Rat) :
    (EvaluationResult.update_value r k f).map Prod.fst = r.map Prod.fst := by
  induction r with
  | nil => rfl
  | cons e rest ih =>
    by_cases hek : e.1 = k <;> simp [EvaluationResult.update_value, hek, ih]

theorem blend_step_lookup_ne (layer : Layer) (prev : EvaluationResult)
    (k0 : PropIdentifier) (p0 : AnimatedProperty) (k : PropIdentifier)
    (h : k ≠ k0) :
    EvaluationResult.lookup_ptr (blend_step layer prev (k0, p0)) k
      = EvaluationResult.lookup_ptr prev k := by
  unfold blend_step
  cases hl : EvaluationResult.lookup_ptr prev k0 with
  | none =>
    simp only [hl]
    exact lookup_ptr_store_ne prev k0.rna_path k0.array_index _ _ k h
  | some q =>
    simp only [hl]
    cases layer.mix_mode <;> exact lookup_ptr_update_ne prev k0 _ k h

theorem blend_step_lookup_self (layer : Layer) (prev : EvaluationResult)
    (k0 : PropIdentifier) (p0 : AnimatedProperty) :
    EvaluationResult.lookup_ptr (blend_step layer prev (k0, p0)) k0
      = match EvaluationResult.lookup_ptr prev k0 with
        | none => some { value := p0.value * layer.influence, prop_rna := p0.prop_rna }
        | some q => some { value := mix_value layer.mix_mode layer.influence
                              q.value p0.value,
                           prop_rna := q.prop_rna } := by
  unfold blend_step
  cases hl : EvaluationResult.lookup_ptr prev k0 with
  | none =>
    simp only [hl]
    exact lookup_ptr_store_self prev k0.rna_path k0.array_index _ _ hl
  | some q =>
    simp only [hl]
    cases layer.mix_mode <;>
      simp [mix_value, lookup_ptr_update_self prev k0 _ q hl]

theorem blend_lookup_ptr (prev cur : EvaluationResult) (layer : Layer)
    (k : PropIdentifier) (hc : (cur.map Prod.fst).Nodup) :
    EvaluationResult.lookup_ptr (blend_layer_results prev cur layer) k
      = match EvaluationResult.lookup_ptr cur k with
        | none => EvaluationResult.lookup_ptr prev k
        | some p =>
          match EvaluationResult.lookup_ptr prev k with
          | none => some { value := p.value * layer.influence, prop_rna := p.prop_rna }
          | some q => some { value := mix_value layer.mix_mode layer.influence
                                q.value p.value,
                             prop_rna := q.prop_rna } := by
  induction cur generalizing prev with
  | nil => simp [blend_layer_results, EvaluationResult.lookup_ptr]
  | cons x rest ih =>
    obtain ⟨k0, p0⟩ := x
    rw [List.map_cons, List.nodup_cons] at hc
    have hstep : blend_layer_results prev ((k0, p0) :: rest) layer
        = blend_layer_results (blend_step layer prev (k0, p0)) rest layer := by
      simp [blend_layer_results]
    rw [hstep, ih _ hc.2]
    by_cases hk : k = k0
    · subst hk
      have hrest : EvaluationResult.lookup_ptr rest k = none :=
        (lookup_ptr_none_iff rest k).mpr hc.1
      rw [hrest, blend_step_lookup_self layer prev k p0]
      have hcons : EvaluationResult.lookup_ptr ((k, p0) :: rest) k = some p0 := by
        unfold EvaluationResult.lookup_ptr
        rw [List.find?_cons_of_pos _ (by simp)]
        rfl
      rw [hcons]
    · have hcons : EvaluationResult.lookup_ptr ((k0, p0) :: rest) k
          = EvaluationResult.lookup_ptr rest k := by
        unfold EvaluationResult.lookup_ptr
        rw [List.find?_cons_of_neg _ (by simpa using fun hc0 : k0 = k => hk hc0.symm)]
      rw [hcons, blend_step_lookup_ne layer prev k0 p0 k hk]

/-- C2: blend_layer_results computes, for every property identifier: a key
present only in the previous result passes through unchanged; a key present
only in the current result is scaled by the layer influence; a key present
in both is combined according to the mix mode of the layer, with Override
giving current times influence, Combine interpolating from previous to
current by the influence, Add, Subtract and Multiply applying the influence
to the current value first.  The nodup hypothesis is the key-uniqueness
invariant of the source hash map. -/
theorem claim_C2_blend_semantics (prev cur : EvaluationResult) (layer : Layer)
    (k : PropIdentifier) (hc : (cur.map Prod.fst).Nodup) :
    (EvaluationResult.lookup_ptr cur k = none →
      EvaluationResult.lookup_ptr (blend_layer_results prev cur layer) k
        = EvaluationResult.lookup_ptr prev k)
    ∧ (∀ p, EvaluationResult.lookup_ptr cur k = some p →
        EvaluationResult.lookup_ptr prev k = none →
        EvaluationResult.lookup_ptr (blend_layer_results prev cur layer) k
          = some { value := p.value * layer.influence, prop_rna := p.prop_rna })
    ∧ (∀ p q, EvaluationResult.lookup_ptr cur k = some p →
        EvaluationResult.lookup_ptr prev k = some q →
        EvaluationResult.lookup_ptr (blend_layer_results prev cur layer) k
          = some { prop_rna := q.prop_rna,
                   value :=
                     match layer.mix_mode with
                     | .override => p.value * layer.influence
                     | .combine => q.value + layer.influence * (p.value - q.value)
                     | .add => q.value + p.value * layer.influence
                     | .subtract => q.value - p.value * layer.influence
                     | .multiply => q.value * (p.value * layer.influence) }) := by
  have hb := blend_lookup_ptr prev cur layer k hc
  refine ⟨?_, ?_, ?_⟩
  · intro h
    rw [hb, h]
  · intro p hp hq
    rw [hb, hp, hq]
  · intro p q hp hq
    rw [hb, hp, hq]
    cases layer.mix_mode <;> rfl

unseal Rat.add Rat.mul Rat.sub in
/-- Witness for C2: blending value 10 (previous) with value 4 (current) at
influence one half in Add mode yields 12. -/
theorem claim_C2_witness :
    EvaluationResult.lookup_ptr
      (blend_layer_results
        [({ rna_path := "location", array_index := 0 },
          { value := 10, prop_rna := { rna_path := "location", array_index := 0 } })]
        [({ rna_path := "location", array_index := 0 },
          { value := 4, prop_rna := { rna_path := "location", array_index := 0 } })]
        { name := "L2", influence := mkRat 1 2, mix_mode := .add,
          strip_array := [], ptr := 0 })
      { rna_path := "location", array_index := 0 }
      = some { value := 12,
               prop_rna := { rna_path := "location", array_index := 0 } } := by
  have h := claim_C2_blend_semantics
    [({ rna_path := "location", array_index := 0 },
      { value := 10, prop_rna := { rna_path := "location", array_index := 0 } })]
    [({ rna_path := "location", array_index := 0 },
      { value := 4, prop_rna := { rna_path := "location", array_index := 0 } })]
    { name := "L2", influence := mkRat 1 2, mix_mode := .add,
      strip_array := [], ptr := 0 }
    { rna_path := "location", array_index := 0 }
    (by decide)
  have h3 := h.2.2
    { value := 4, prop_rna := { rna_path := "location", array_index := 0 } }
    { value := 10, prop_rna := { rna_path := "location", array_index := 0 } }
    (by decide) (by decide)
  rw [h3]
  decide

/- ----- the evaluation phase never writes to the object ----- -/

theorem evaluate_fcurves_obj (cf : FCurve → Rat → Rat) (obj : AnimatedID)
    (fcurves : List FCurve) (t : Rat) (res : EvaluationResult) :
    (evaluate_fcurves cf obj fcurves t res).2 = obj := by
  induction fcurves generalizing res with
  | nil => rfl
  | cons fcu rest ih =>
    simp only [evaluate_fcurves]
    split
    · exact ih res
    · split
      · exact ih res
      · exact ih _

theorem evaluate_keyframe_strip_obj (cf : FCurve → Rat → Rat) (obj : AnimatedID)
    (ks : KeyframeStrip) (oi : Int) (t : Rat) :
    (evaluate_keyframe_strip cf obj ks oi t).2 = obj := by
  unfold evaluate_keyframe_strip
  split
  · rfl
  · exact evaluate_fcurves_obj cf obj _ t []

theorem evaluate_strip_obj (cf : FCurve → Rat → Rat) (obj : AnimatedID)
    (strip : Strip) (oi : Int) (t : Rat) :
    (evaluate_strip cf obj strip oi t).2 = obj := by
  unfold evaluate_strip
  cases strip.data with
  | keyframe ks => exact evaluate_keyframe_strip_obj cf obj ks oi _

theorem evaluate_layer_strips_obj (cf : FCurve → Rat → Rat) (obj : AnimatedID)
    (strips : List Strip) (oi : Int) (t : Rat) :
    (evaluate_layer_strips cf obj strips oi t).2 = obj := by
  induction strips generalizing obj with
  | nil => rfl
  | cons strip rest ih =>
    simp only [evaluate_layer_strips]
    split
    · exact ih obj
    · rcases hsr : evaluate_strip cf obj strip oi t with ⟨r, obj2⟩
      have hobj : obj2 = obj := by
        have h2 := evaluate_strip_obj cf obj strip oi t
        rw [hsr] at h2
        exact h2
      cases r with
      | none =>
        show (evaluate_layer_strips cf obj2 rest oi t).2 = obj
        rw [ih obj2, hobj]
      | some res => exact hobj

theorem evaluate_layer_obj (cf : FCurve → Rat → Rat) (obj : AnimatedID)
    (layer : Layer) (oi : Int) (t : Rat) :
    (evaluate_layer cf obj layer oi t).2 = obj :=
  evaluate_layer_strips_obj cf obj layer.strip_array oi t

theorem evaluate_anim_layers_obj (cf : FCurve → Rat → Rat) (obj : AnimatedID)
    (layers : List Layer) (oi : Int) (t : Rat) (last : Option EvaluationResult) :
    (evaluate_anim_layers cf obj layers oi t last).2 = obj := by
  induction layers generalizing obj last with
  | nil => rfl
  | cons layer rest ih =>
    simp only [evaluate_anim_layers]
    split
    · exact ih obj last
    · rcases hlr : evaluate_layer cf obj layer oi t with ⟨r, obj2⟩
      have hobj : obj2 = obj := by
        have h2 := evaluate_layer_obj cf obj layer oi t
        rw [hlr] at h2
        exact h2
      cases r with
      | none =>
        show (evaluate_anim_layers cf obj2 rest oi t last).2 = obj
        rw [ih obj2 last, hobj]
      | some res =>
        cases last with
        | none =>
          show (evaluate_anim_layers cf obj2 rest oi t (some res)).2 = obj
          rw [ih obj2 _, hobj]
        | some prev =>
          show (evaluate_anim_layers cf obj2 rest oi t
            (some (blend_layer_results prev res layer))).2 = obj
          rw [ih obj2 _, hobj]

/- ----- C4: strip selection within a layer ----- -/

/-- C4 (amended): evaluate_layer scans the strips in order, skips every
strip whose range does not contain the time, evaluates a containing strip at
the offset time, and returns the result of the first containing strip that
produces one; a containing strip that produces no result (a keyframe strip
with no channel group for the output) is passed over and the scan
continues. -/
theorem claim_C4_first_matching_strip (cf : FCurve → Rat → Rat)
    (obj : AnimatedID) (layer : Layer) (oi : Int) (t : Rat) :
    (evaluate_layer cf obj layer oi t).1 =
      layer.strip_array.findSome? (fun strip =>
        if strip.contains_frame (.fin t) = true then
          match strip.data with
          | .keyframe ks =>
            (evaluate_keyframe_strip cf obj ks oi (t - strip.frame_offset)).1
        else none) := by
  show (evaluate_layer_strips cf obj layer.strip_array oi t).1 = _
  induction layer.strip_array generalizing obj with
  | nil => rfl
  | cons strip rest ih =>
    obtain ⟨fs, fe, off, sp, sd⟩ := strip
    obtain ⟨ks⟩ := sd
    simp only [evaluate_layer_strips, List.findSome?_cons]
    cases hcf : Strip.contains_frame
        ⟨fs, fe, off, sp, .keyframe ks⟩ (.fin t) with
    | false =>
      simp only [hcf, Bool.not_false, if_true, Bool.false_eq_true, if_false]
      exact ih obj
    | true =>
      simp only [hcf, Bool.not_true, Bool.false_eq_true, if_false, if_true]
      rcases hsr : evaluate_keyframe_strip cf obj ks oi (t - off) with ⟨r, obj2⟩
      have hobj : obj2 = obj := by
        have h2 := evaluate_keyframe_strip_obj cf obj ks oi (t - off)
        rw [hsr] at h2
        exact h2
      have hes : evaluate_strip cf obj ⟨fs, fe, off, sp, .keyframe ks⟩ oi t
          = (r, obj2) := hsr
      rw [hes]
      cases r with
      | none =>
        show (evaluate_layer_strips cf obj2 rest oi t).1 = _
        rw [hobj, ih obj]
      | some res => rfl

unseal Rat.sub in
/-- Counterexample to C4 as stated: both strips contain time 0; the claim
says the first containing strip wins and its (empty) outcome is returned
immediately, but the code skips it because it yields no result and returns
the second strip's result. -/
theorem claim_C4_counterexample :
    evaluate_layer_claimC4 const4 sample_obj c4_layer 1 0
      ≠ (evaluate_layer const4 sample_obj c4_layer 1 0).1 := by
  decide

theorem evaluate_anim_layers_acc (cf : FCurve → Rat → Rat) (obj : AnimatedID)
    (layers : List Layer) (oi : Int) (t : Rat)
    (last : Option EvaluationResult) :
    (evaluate_anim_layers cf obj layers oi t last).1 =
      match last with
      | some prev => some ((contributing_layer_results cf obj layers oi t).foldl
          (fun acc rl => blend_layer_results acc rl.1 rl.2) prev)
      | none =>
        match contributing_layer_results cf obj layers oi t with
        | [] => none
        | (r0, _) :: rest =>
          some (rest.foldl (fun acc rl => blend_layer_results acc rl.1 rl.2) r0) := by
  induction layers generalizing last with
  | nil => cases last <;> rfl
  | cons layer rest ih =>
    simp only [evaluate_anim_layers, contributing_layer_results, List.filterMap_cons]
    by_cases hinf : layer.influence ≤ 0
    · simp only [hinf, if_true]
      exact ih last
    · simp only [hinf, if_false]
      rcases hlr : evaluate_layer cf obj layer oi t with ⟨r, obj2⟩
      have hobj : obj2 = obj := by
        have h2 := evaluate_layer_obj cf obj layer oi t
        rw [hlr] at h2
        exact h2
      subst hobj
      cases r with
      | none => exact ih last
      | some res =>
        cases last with
        | none =>
          rw [ih (some res)]
          simp [contributing_layer_results]
        | some prev =>
          rw [ih (some (blend_layer_results prev res layer))]
          simp [contributing_layer_results]

/-- C3 (amended): every layer with influence at most zero is skipped, every
layer that yields no result at all is skipped, the first layer that yields a
result is taken verbatim as the accumulated result (even when that result
holds no properties, for example when the containing strip has a channel
group for the output but no evaluatable or resolvable curve), and every
later layer that yields a result is blended into the accumulator in layer
order. -/
theorem claim_C3_first_result_verbatim (cf : FCurve → Rat → Rat)
    (obj : AnimatedID) (anim : Animation) (oi : Int) (t : Rat) :
    (evaluate_anim_layers cf obj anim.layer_array oi t none).1 =
      match contributing_layer_results cf obj anim.layer_array oi t with
      | [] => none
      | (r0, _) :: rest =>
        some (rest.foldl (fun acc rl => blend_layer_results acc rl.1 rl.2) r0) :=
  evaluate_anim_layers_acc cf obj anim.layer_array oi t none

unseal Rat.add Rat.mul Rat.sub in
/-- Counterexample to C3 as stated: the first layer yields an engaged result
with no properties.  The claim says such a layer is skipped and the second
layer's result (value 4) is taken verbatim; the code instead blends the
second layer into the empty result, applying its influence (value 2). -/
theorem claim_C3_counterexample :
    evaluate_anim_layers_claimC3 const4 sample_obj [c3_layer1, c3_layer2] 1 0
      ≠ (evaluate_anim_layers const4 sample_obj [c3_layer1, c3_layer2] 1 0 none).1 := by
  decide

theorem result_good_nil : result_good [] := by
  constructor
  · exact List.nodup_nil
  · intro e he
    cases he

theorem store_good (r : EvaluationResult) (path : String) (idx : Int) (v : Rat)
    (loc : PathResolvedRNA) (hg : result_good r)
    (hl : loc = PropIdentifier.mk path idx) :
    result_good (EvaluationResult.store r path idx v loc) := by
  unfold EvaluationResult.store
  split
  · exact hg
  · rename_i hfind
    have hnone : List.find? (fun e => decide (e.1 = PropIdentifier.mk path idx)) r
        = none := by
      cases hf : List.find? (fun e => decide (e.1 = PropIdentifier.mk path idx)) r
      · rfl
      · rw [hf] at hfind
        simp at hfind
    have hnotin : PropIdentifier.mk path idx ∉ r.map Prod.fst := by
      rw [List.find?_eq_none] at hnone
      intro hmem
      obtain ⟨e, he, hek⟩ := List.mem_map.mp hmem
      exact absurd (by simpa using hek) (by simpa using hnone e he)
    constructor
    · rw [List.map_append]
      simp [List.nodup_append, hg.1, hnotin]
    · intro e he
      rcases List.mem_append.mp he with hmem | hmem
      · exact hg.2 e hmem
      · simp at hmem
        rw [hmem, hl]

theorem update_value_entries (r : EvaluationResult) (k : PropIdentifier)
    (f : Rat → Rat) :
    ∀ e ∈ EvaluationResult.update_value r k f,
      ∃ e0, e0 ∈ r ∧ e.1 = e0.1 ∧ e.2.prop_rna = e0.2.prop_rna := by
  induction r with
  | nil => intro e he; cases he
  | cons x rest ih =>
    intro e he
    by_cases hxk : x.1 = k
    · simp only [EvaluationResult.update_value, hxk, if_true] at he
      rcases List.mem_cons.mp he with hhead | htail
      · exact ⟨x, List.mem_cons_self x rest,
          by rw [hhead]; exact hxk.symm, by rw [hhead]⟩
      · exact ⟨e, List.mem_cons_of_mem x htail, rfl, rfl⟩
    · simp only [EvaluationResult.update_value, hxk, if_false] at he
      rcases List.mem_cons.mp he with hhead | htail
      · exact ⟨x, List.mem_cons_self x rest, by rw [hhead], by rw [hhead]⟩
      · obtain ⟨e0, he0, h1, h2⟩ := ih e htail
        exact ⟨e0, List.mem_cons_of_mem x he0, h1, h2⟩

theorem update_good (r : EvaluationResult) (k : PropIdentifier) (f : Rat → Rat)
    (hg : result_good r) : result_good (EvaluationResult.update_value r k f) := by
  constructor
  · rw [update_value_map_fst]
    exact hg.1
  · intro e he
    obtain ⟨e0, he0, h1, h2⟩ := update_value_entries r k f e he
    rw [h2, h1]
    exact hg.2 e0 he0

theorem blend_step_good (layer : Layer) (prev : EvaluationResult)
    (x : PropIdentifier × AnimatedProperty) (hg : result_good prev)
    (hx : x.2.prop_rna = x.1) : result_good (blend_step layer prev x) := by
  obtain ⟨k0, p0⟩ := x
  simp only [blend_step]
  cases hl : EvaluationResult.lookup_ptr prev k0 with
  | none =>
    simp only [hl]
    exact store_good prev k0.rna_path k0.array_index _ _ hg hx
  | some q =>
    simp only [hl]
    cases layer.mix_mode <;> exact update_good prev k0 _ hg

theorem blend_good (prev cur : EvaluationResult) (layer : Layer)
    (hg : result_good prev) (hcur : ∀ e ∈ cur, e.2.prop_rna = e.1) :
    result_good (blend_layer_results prev cur layer) := by
  induction cur generalizing prev with
  | nil => exact hg
  | cons x rest ih =>
    have hstep : blend_layer_results prev (x :: rest) layer
        = blend_layer_results (blend_step layer prev x) rest layer := by
      simp [blend_layer_results]
    rw [hstep]
    exact ih (blend_step layer prev x)
      (blend_step_good layer prev x hg (hcur x (List.mem_cons_self x rest)))
      (fun e he => hcur e (List.mem_cons_of_mem x he))

theorem resolve_loc (obj : AnimatedID) (path : String) (idx : Int)
    (loc : PathResolvedRNA) (h : rna_path_resolve obj path idx = some loc) :
    loc = PropIdentifier.mk path idx := by
  unfold rna_path_resolve at h
  split at h
  · injection h with h2
    exact h2.symm
  · cases h

theorem evaluate_fcurves_good (cf : FCurve → Rat → Rat) (obj : AnimatedID)
    (fcurves : List FCurve) (t : Rat) (res : EvaluationResult)
    (hg : result_good res) :
    result_good (evaluate_fcurves cf obj fcurves t res).1 := by
  induction fcurves generalizing res with
  | nil => exact hg
  | cons fcu rest ih =>
    simp only [evaluate_fcurves]
    split
    · exact ih res hg
    · cases hres : rna_path_resolve obj fcu.rna_path fcu.array_index with
      | none => exact ih res hg
      | some anim_rna =>
        exact ih _ (store_good res fcu.rna_path fcu.array_index _ anim_rna hg
          (resolve_loc obj fcu.rna_path fcu.array_index anim_rna hres))

theorem evaluate_keyframe_strip_good (cf : FCurve → Rat → Rat)
    (obj : AnimatedID) (ks : KeyframeStrip) (oi : Int) (t : Rat)
    (r : EvaluationResult)
    (h : (evaluate_keyframe_strip cf obj ks oi t).1 = some r) : result_good r := by
  unfold evaluate_keyframe_strip at h
  split at h
  · cases h
  · injection h with h2
    rw [← h2]
    exact evaluate_fcurves_good cf obj _ t [] result_good_nil

theorem evaluate_strip_good (cf : FCurve → Rat → Rat) (obj : AnimatedID)
    (strip : Strip) (oi : Int) (t : Rat) (r : EvaluationResult)
    (h : (evaluate_strip cf obj strip oi t).1 = some r) : result_good r := by
  unfold evaluate_strip at h
  rcases strip with ⟨fs, fe, off, sp, ⟨ks⟩⟩
  exact evaluate_keyframe_strip_good cf obj ks oi _ r h

theorem evaluate_layer_strips_good (cf : FCurve → Rat → Rat) (obj : AnimatedID)
    (strips : List Strip) (oi : Int) (t : Rat) (r : EvaluationResult)
    (h : (evaluate_layer_strips cf obj strips oi t).1 = some r) : result_good r := by
  induction strips generalizing obj with
  | nil => cases h
  | cons strip rest ih =>
    simp only [evaluate_layer_strips] at h
    split at h
    · exact ih obj h
    · rcases hsr : evaluate_strip cf obj strip oi t with ⟨sr, obj2⟩
      rw [hsr] at h
      cases sr with
      | none => exact ih obj2 h
      | some res =>
        injection h with h2
        rw [← h2]
        exact evaluate_strip_good cf obj strip oi t res (by rw [hsr])

theorem evaluate_layer_good (cf : FCurve → Rat → Rat) (obj : AnimatedID)
    (layer : Layer) (oi : Int) (t : Rat) (r : EvaluationResult)
    (h : (evaluate_layer cf obj layer oi t).1 = some r) : result_good r :=
  evaluate_layer_strips_good cf obj layer.strip_array oi t r h

theorem evaluate_anim_layers_good (cf : FCurve → Rat → Rat) (obj : AnimatedID)
    (layers : List Layer) (oi : Int) (t : Rat) (last : Option EvaluationResult)
    (r : EvaluationResult)
    (hlast : ∀ p, last = some p → result_good p)
    (h : (evaluate_anim_layers cf obj layers oi t last).1 = some r) :
    result_good r := by
  induction layers generalizing obj last with
  | nil =>
    simp only [evaluate_anim_layers] at h
    exact hlast r h
  | cons layer rest ih =>
    simp only [evaluate_anim_layers] at h
    split at h
    · exact ih obj last hlast h
    · rcases hlr : evaluate_layer cf obj layer oi t with ⟨lr, obj2⟩
      rw [hlr] at h
      cases lr with
      | none => exact ih obj2 last hlast h
      | some res =>
        have hres : result_good res :=
          evaluate_layer_good cf obj layer oi t res (by rw [hlr])
        cases last with
        | none =>
          exact ih obj2 (some res) (fun p hp => by injection hp with hp2; rw [← hp2]; exact hres) h
        | some prev =>
          exact ih obj2 _ (fun p hp => by
            injection hp with hp2
            rw [← hp2]
            exact blend_good prev res layer (hlast prev rfl) hres.2) h

theorem apply_trace (res : EvaluationResult) (obj : AnimatedID) :
    (apply_evaluation_result res obj).2 = res.map (fun e => e.2.prop_rna) := by
  induction res generalizing obj with
  | nil => rfl
  | cons x rest ih => simp [apply_evaluation_result, ih]

theorem lookup_prop_write_ne (obj : AnimatedID) (loc : PathResolvedRNA)
    (v : Rat) (k : PropIdentifier) (h : k ≠ loc) :
    lookup_prop (write_to_rna_path loc v obj) k = lookup_prop obj k := by
  induction obj with
  | nil => rfl
  | cons e rest ih =>
    by_cases hek : e.1 = k
    · have hne : ¬(e.1 = loc) := by
        rw [hek]
        exact h
      unfold write_to_rna_path lookup_prop
      simp only [List.map_cons, hne, if_false]
      rw [List.find?_cons_of_pos _ (by simpa using hek),
        List.find?_cons_of_pos _ (by simpa using hek)]
    · unfold write_to_rna_path lookup_prop
      simp only [List.map_cons]
      by_cases hel : e.1 = loc
      · have hlk : ¬(loc = k) := fun hc => h hc.symm
        rw [List.find?_cons_of_neg _ (by simp [hel, hlk]),
          List.find?_cons_of_neg _ (by simpa using hek)]
        exact ih
      · rw [List.find?_cons_of_neg _ (by simp [hel, hek]),
          List.find?_cons_of_neg _ (by simpa using hek)]
        exact ih

theorem apply_lookup_not_written (res : EvaluationResult) (obj : AnimatedID)
    (k : PropIdentifier) (h : k ∉ res.map (fun e => e.2.prop_rna)) :
    lookup_prop (apply_evaluation_result res obj).1 k = lookup_prop obj k := by
  induction res generalizing obj with
  | nil => rfl
  | cons x rest ih =>
    simp only [List.map_cons, List.mem_cons, not_or] at h
    simp only [apply_evaluation_result]
    rw [ih _ h.2, lookup_prop_write_ne obj x.2.prop_rna x.2.value k h.1]

/-- C1: for every animation, output index, time and object, the layer
accumulation pass returns the object untouched (no property is written
before apply_evaluation_result runs); when nothing contributed, nothing is
written at all; and when a final blended result exists, the write trace of
evaluate_animation is exactly the list of that result's property
identifiers, each written exactly once (the key list has no duplicates),
while every property outside the result keeps its value. -/
theorem claim_C1_evaluation_non_mutation (cf : FCurve → Rat → Rat)
    (anim : Animation) (oi : Int) (t : Rat) (obj : AnimatedID) :
    (evaluate_anim_layers cf obj anim.layer_array oi t none).2 = obj
    ∧ ((evaluate_anim_layers cf obj anim.layer_array oi t none).1 = none →
        evaluate_animation cf obj anim oi t = (obj, []))
    ∧ (∀ r, (evaluate_anim_layers cf obj anim.layer_array oi t none).1 = some r →
        ((evaluate_animation cf obj anim oi t).2 = r.map Prod.fst
         ∧ (r.map Prod.fst).Nodup
         ∧ ∀ k, k ∉ r.map Prod.fst →
             lookup_prop (evaluate_animation cf obj anim oi t).1 k
               = lookup_prop obj k)) := by
  rcases hE : evaluate_anim_layers cf obj anim.layer_array oi t none with ⟨rr, obj2⟩
  have hobj : obj2 = obj := by
    have h2 := evaluate_anim_layers_obj cf obj anim.layer_array oi t none
    rw [hE] at h2
    exact h2
  have heval_none : rr = none → evaluate_animation cf obj anim oi t = (obj, []) := by
    intro hrr
    subst hrr
    unfold evaluate_animation
    rw [hE, hobj]
  have heval_some : ∀ lr, rr = some lr →
      evaluate_animation cf obj anim oi t = apply_evaluation_result lr obj := by
    intro lr hrr
    subst hrr
    unfold evaluate_animation
    rw [hE, hobj]
  refine ⟨hobj, ?_, ?_⟩
  · intro hnone
    cases rr with
    | none => exact heval_none rfl
    | some r => cases hnone
  · intro r hsome
    cases rr with
    | none => cases hsome
    | some rr2 =>
      have hr : rr2 = r := by
        injection hsome
      subst hr
      have happly := heval_some rr2 rfl
      have hgood : result_good rr2 := by
        apply evaluate_anim_layers_good cf obj anim.layer_array oi t none rr2
          (fun p hp => by cases hp)
        rw [hE]
      have hmapeq : rr2.map (fun e => e.2.prop_rna) = rr2.map Prod.fst :=
        List.map_congr_left (fun e he => hgood.2 e he)
      refine ⟨?_, hgood.1, ?_⟩
      · rw [happly, apply_trace, hmapeq]
      · intro k hk
        rw [happly]
        exact apply_lookup_not_written rr2 obj k (by rw [hmapeq]; exact hk)

unseal Rat.sub in
/-- Witness for C1: evaluating the one-layer animation writes exactly
location[0] (once) and leaves rotation_euler[1] untouched. -/
theorem claim_C1_witness :
    (evaluate_animation const4 c1_obj c1_anim 1 0).2 = [sample_loc]
      ∧ lookup_prop (evaluate_animation const4 c1_obj c1_anim 1 0).1
          { rna_path := "rotation_euler", array_index := 1 } = some 7 := by
  have h := claim_C1_evaluation_non_mutation const4 c1_anim 1 0 c1_obj
  have h3 := h.2.2 [(sample_loc, { value := 4, prop_rna := sample_loc })]
    (by decide)
  refine ⟨?_, ?_⟩
  · rw [h3.1]
    decide
  · have h4 := h3.2.2 { rna_path := "rotation_euler", array_index := 1 } (by decide)
    rw [h4]
    decide

/- ----- lemmas about list_update_first and the curve containers ----- -/

theorem find?_update_first {α : Type} (p : α → Bool) (f : α → α) (l : List α)
    (x : α) (h : l.find? p = some x) (hpf : p (f x) = true) :
    (list_update_first p f l).find? p = some (f x) := by
  induction l with
  | nil => cases h
  | cons y ys ih =>
    cases hp : p y with
    | true =>
      have hyx : y = x := by
        rw [List.find?_cons_of_pos _ hp] at h
        injection h
      subst hyx
      simp only [list_update_first, hp, if_true]
      rw [List.find?_cons_of_pos _ hpf]
    | false =>
      rw [List.find?_cons_of_neg _ (by simp [hp])] at h
      simp only [list_update_first, hp, Bool.false_eq_true, if_false]
      rw [List.find?_cons_of_neg _ (by simp [hp])]
      exact ih h

theorem find?_update_first_other {α : Type} (p q : α → Bool) (f : α → α)
    (l : List α) (hq : ∀ a, q (f a) = q a)
    (hdisj : ∀ a, p a = true → q a = false) :
    (list_update_first p f l).find? q = l.find? q := by
  induction l with
  | nil => rfl
  | cons y ys ih =>
    cases hp : p y with
    | true =>
      have hqy : q y = false := hdisj y hp
      have hqfy : q (f y) = false := by rw [hq]; exact hqy
      simp only [list_update_first, hp, if_true]
      rw [List.find?_cons_of_neg _ (by simp [hqfy]),
        List.find?_cons_of_neg _ (by simp [hqy])]
    | false =>
      simp only [list_update_first, hp, Bool.false_eq_true, if_false]
      cases hqy : q y with
      | true =>
        rw [List.find?_cons_of_pos _ hqy, List.find?_cons_of_pos _ hqy]
      | false =>
        rw [List.find?_cons_of_neg _ (by simp [hqy]),
          List.find?_cons_of_neg _ (by simp [hqy])]
        exact ih

theorem update_first_eq_self_of {α : Type} (p : α → Bool) (f : α → α)
    (l : List α) (x : α) (h : l.find? p = some x) (hfx : f x = x) :
    list_update_first p f l = l := by
  induction l with
  | nil => rfl
  | cons y ys ih =>
    cases hp : p y with
    | true =>
      have hyx : y = x := by
        rw [List.find?_cons_of_pos _ hp] at h
        injection h
      subst hyx
      simp only [list_update_first, hp, if_true, hfx]
    | false =>
      rw [List.find?_cons_of_neg _ (by simp [hp])] at h
      simp only [list_update_first, hp, Bool.false_eq_true, if_false]
      rw [ih h]

theorem fcurve_find_fields (ks : KeyframeStrip) (oi : Int) (rna_path : String)
    (array_index : Int) (c : FCurve)
    (h : ks.fcurve_find oi rna_path array_index = some c) :
    c.array_index = array_index ∧ c.rna_path = rna_path := by
  unfold KeyframeStrip.fcurve_find at h
  split at h
  · cases h
  · have := List.find?_some h
    simpa [fcurve_matches] using this

theorem fresh_fcurve_matches (rna_path : String) (array_index : Int)
    (asm : Nat) :
    fcurve_matches rna_path array_index (fresh_fcurve rna_path array_index asm)
        = true
    ∧ fcurve_matches rna_path array_index
        { fresh_fcurve rna_path array_index asm with flag_active := true }
        = true := by
  constructor <;> simp [fcurve_matches, fresh_fcurve]

theorem fcurve_find_or_create_found (ks : KeyframeStrip) (oi : Int)
    (rna_path : String) (array_index : Int) (asm : Nat) (c : FCurve)
    (h : ks.fcurve_find oi rna_path array_index = some c) :
    ks.fcurve_find_or_create oi rna_path array_index asm = (ks, c) := by
  unfold KeyframeStrip.fcurve_find_or_create
  rw [h]

theorem fcurve_find_or_create_eq_of_group (ks : KeyframeStrip) (oi : Int)
    (rna_path : String) (array_index : Int) (asm : Nat)
    (channels : ChannelsForOutput)
    (hf : ks.fcurve_find oi rna_path array_index = none)
    (hg : ks.chans_for_out oi = some channels) :
    ks.fcurve_find_or_create oi rna_path array_index asm =
      ({ channels_for_output_array :=
          (list_update_first
            (fun ch => decide (ch.output_stable_index = oi))
            (fun ch =>
              { ch with fcurve_array := ch.fcurve_array
                ++ [if channels.fcurve_array.length = 0 then
                      { fresh_fcurve rna_path array_index asm with
                        flag_active := true }
                    else fresh_fcurve rna_path array_index asm] })
            ks.channels_for_output_array) },
       if channels.fcurve_array.length = 0 then
         { fresh_fcurve rna_path array_index asm with flag_active := true }
       else fresh_fcurve rna_path array_index asm) := by
  unfold KeyframeStrip.fcurve_find_or_create
  rw [hf, hg]

theorem fcurve_find_or_create_eq_no_group (ks : KeyframeStrip) (oi : Int)
    (rna_path : String) (array_index : Int) (asm : Nat)
    (hf : ks.fcurve_find oi rna_path array_index = none)
    (hg : ks.chans_for_out oi = none) :
    ks.fcurve_find_or_create oi rna_path array_index asm =
      ({ channels_for_output_array := ks.channels_for_output_array
          ++ [{ output_stable_index := oi,
                fcurve_array :=
                  [{ fresh_fcurve rna_path array_index asm with
                     flag_active := true }] }] },
       { fresh_fcurve rna_path array_index asm with flag_active := true }) := by
  unfold KeyframeStrip.fcurve_find_or_create
  rw [hf, hg]

theorem fcurve_find_or_create_find (ks : KeyframeStrip) (oi : Int)
    (rna_path : String) (array_index : Int) (asm : Nat) :
    ((ks.fcurve_find_or_create oi rna_path array_index asm).1).fcurve_find
        oi rna_path array_index
      = some (ks.fcurve_find_or_create oi rna_path array_index asm).2 := by
  cases hf : ks.fcurve_find oi rna_path array_index with
  | some c =>
    rw [fcurve_find_or_create_found ks oi rna_path array_index asm c hf]
    exact hf
  | none =>
    cases hg : ks.chans_for_out oi with
    | some channels =>
      rw [fcurve_find_or_create_eq_of_group ks oi rna_path array_index asm
        channels hf hg]
      unfold KeyframeStrip.chans_for_out at hg
      have hp2 : (fun ch => decide (ch.output_stable_index = oi))
          ({ channels with fcurve_array := channels.fcurve_array
            ++ [if channels.fcurve_array.length = 0 then
                  { fresh_fcurve rna_path array_index asm with flag_active := true }
                else fresh_fcurve rna_path array_index asm] }) = true := by
        simpa using List.find?_some hg
      have hinner : channels.fcurve_array.find?
          (fcurve_matches rna_path array_index) = none := by
        unfold KeyframeStrip.fcurve_find KeyframeStrip.chans_for_out at hf
        rw [hg] at hf
        exact hf
      unfold KeyframeStrip.fcurve_find KeyframeStrip.chans_for_out
      rw [find?_update_first (fun ch => decide (ch.output_stable_index = oi)) _
        ks.channels_for_output_array channels hg hp2]
      simp only [List.find?_append, hinner, Option.none_or, List.find?_singleton]
      split <;> simp [fcurve_matches, fresh_fcurve]
    | none =>
      rw [fcurve_find_or_create_eq_no_group ks oi rna_path array_index asm hf hg]
      unfold KeyframeStrip.chans_for_out at hg
      unfold KeyframeStrip.fcurve_find KeyframeStrip.chans_for_out
      simp only [List.find?_append, hg, Option.none_or, List.find?_singleton]
      simp [fcurve_matches, fresh_fcurve]

theorem fcurve_find_or_create_preserves (ks : KeyframeStrip) (oi : Int)
    (rna_path : String) (array_index : Int) (asm : Nat) (oi2 : Int)
    (path2 : String) (idx2 : Int) (c : FCurve)
    (h : ks.fcurve_find oi2 path2 idx2 = some c) :
    ((ks.fcurve_find_or_create oi rna_path array_index asm).1).fcurve_find
        oi2 path2 idx2 = some c := by
  cases hf : ks.fcurve_find oi rna_path array_index with
  | some c2 =>
    rw [fcurve_find_or_create_found ks oi rna_path array_index asm c2 hf]
    exact h
  | none =>
    cases hg : ks.chans_for_out oi with
    | some channels =>
      rw [fcurve_find_or_create_eq_of_group ks oi rna_path array_index asm
        channels hf hg]
      unfold KeyframeStrip.chans_for_out at hg
      unfold KeyframeStrip.fcurve_find KeyframeStrip.chans_for_out at h
      unfold KeyframeStrip.fcurve_find KeyframeStrip.chans_for_out
      by_cases hoi : oi2 = oi
      · subst hoi
        rw [hg] at h
        have h2 : List.find? (fcurve_matches path2 idx2) channels.fcurve_array
            = some c := h
        have hp2 : (fun ch => decide (ch.output_stable_index = oi2))
            ({ channels with fcurve_array := channels.fcurve_array
              ++ [if channels.fcurve_array.length = 0 then
                    { fresh_fcurve rna_path array_index asm with
                      flag_active := true }
                  else fresh_fcurve rna_path array_index asm] }) = true := by
          simpa using List.find?_some hg
        rw [find?_update_first (fun ch => decide (ch.output_stable_index = oi2))
          _ ks.channels_for_output_array channels hg hp2]
        simp only [List.find?_append, h2, Option.or_some]
      · rw [find?_update_first_other
          (fun ch => decide (ch.output_stable_index = oi))
          (fun ch => decide (ch.output_stable_index = oi2))
          (fun ch =>
            { ch with fcurve_array := ch.fcurve_array
              ++ [if channels.fcurve_array.length = 0 then
                    { fresh_fcurve rna_path array_index asm with
                      flag_active := true }
                  else fresh_fcurve rna_path array_index asm] })
          ks.channels_for_output_array (fun a => rfl) ?hdisj]
        · exact h
        · intro a ha
          have ha2 : a.output_stable_index = oi := by simpa using ha
          simp only [ha2, decide_eq_false_iff_not]
          exact fun hc => hoi hc.symm
    | none =>
      rw [fcurve_find_or_create_eq_no_group ks oi rna_path array_index asm hf hg]
      unfold KeyframeStrip.fcurve_find KeyframeStrip.chans_for_out at h
      unfold KeyframeStrip.fcurve_find KeyframeStrip.chans_for_out
      cases hg2 : ks.channels_for_output_array.find?
          (fun ch => decide (ch.output_stable_index = oi2)) with
      | none =>
        rw [hg2] at h
        cases h
      | some g =>
        rw [hg2] at h
        simp only [List.find?_append, hg2, Option.or_some]
        exact h

theorem replace_first_fcurve_find (ks : KeyframeStrip) (oi : Int)
    (rna_path : String) (array_index : Int) (fcu fcu2 : FCurve)
    (h : ks.fcurve_find oi rna_path array_index = some fcu)
    (hpred : fcurve_matches rna_path array_index fcu2 = true) :
    (ks.replace_first_fcurve oi rna_path array_index fcu2).fcurve_find
        oi rna_path array_index = some fcu2 := by
  unfold KeyframeStrip.fcurve_find KeyframeStrip.chans_for_out at h
  cases hg : ks.channels_for_output_array.find?
      (fun ch => decide (ch.output_stable_index = oi)) with
  | none =>
    rw [hg] at h
    cases h
  | some g =>
    rw [hg] at h
    have h2 : List.find? (fcurve_matches rna_path array_index) g.fcurve_array
        = some fcu := h
    unfold KeyframeStrip.replace_first_fcurve KeyframeStrip.fcurve_find
      KeyframeStrip.chans_for_out
    have hp2 : (fun ch => decide (ch.output_stable_index = oi))
        ({ g with fcurve_array :=
            (list_update_first (fcurve_matches rna_path array_index)
              (fun _ => fcu2) g.fcurve_array) }) = true := by
      simpa using List.find?_some hg
    rw [find?_update_first (fun ch => decide (ch.output_stable_index = oi))
      (fun ch =>
        { ch with fcurve_array :=
            (list_update_first (fcurve_matches rna_path array_index)
              (fun _ => fcu2) ch.fcurve_array) })
      ks.channels_for_output_array g hg hp2]
    exact find?_update_first (fcurve_matches rna_path array_index)
      (fun _ => fcu2) g.fcurve_array fcu h2 hpred

theorem replace_first_fcurve_self (ks : KeyframeStrip) (oi : Int)
    (rna_path : String) (array_index : Int) (fcu : FCurve)
    (h : ks.fcurve_find oi rna_path array_index = some fcu) :
    ks.replace_first_fcurve oi rna_path array_index fcu = ks := by
  unfold KeyframeStrip.fcurve_find KeyframeStrip.chans_for_out at h
  cases hg : ks.channels_for_output_array.find?
      (fun ch => decide (ch.output_stable_index = oi)) with
  | none =>
    rw [hg] at h
    cases h
  | some g =>
    rw [hg] at h
    unfold KeyframeStrip.replace_first_fcurve
    have hFg : (fun ch =>
        { ch with fcurve_array :=
            (list_update_first (fcurve_matches rna_path array_index)
              (fun _ => fcu) ch.fcurve_array) }) g = g := by
      have hin : list_update_first (fcurve_matches rna_path array_index)
          (fun _ => fcu) g.fcurve_array = g.fcurve_array :=
        update_first_eq_self_of _ _ g.fcurve_array fcu h rfl
      simp [hin]
    have houter := update_first_eq_self_of
      (fun ch => decide (ch.output_stable_index = oi))
      (fun ch =>
        { ch with fcurve_array :=
            (list_update_first (fcurve_matches rna_path array_index)
              (fun _ => fcu) ch.fcurve_array) })
      ks.channels_for_output_array g hg hFg
    cases ks with
    | mk arr =>
      simp only at houter
      simp [houter]

/-- C5 (amended): keyframe_insert fails by returning the none sentinel
(never raising) both when the curve refuses new keys and when the external
insertion primitive reports a negative index; a failed call performs no
modification beyond what fcurve_find_or_create already did, so when the
curve pre-existed the strip is completely unchanged, and in every failed
call all previously existing curves (and hence all previously inserted
keys) are still found unchanged; on success the affected curve is returned.
The primitive is assumed not to mutate the curve when it fails and to
preserve the curve's path and array index (the contract of
insert_vert_fcurve). -/
theorem claim_C5_keyframe_insert_failure
    (prim : FCurve → Rat × Rat → Int → FCurve × Int)
    (ks : KeyframeStrip) (oi : Int) (rna_path : String) (array_index : Int)
    (time_value : Rat × Rat) (settings : Int) (asm : Nat)
    (hprim : ∀ f tv st, (prim f tv st).2 < 0 → (prim f tv st).1 = f)
    (hprim2 : ∀ f tv st, (prim f tv st).1.rna_path = f.rna_path
        ∧ (prim f tv st).1.array_index = f.array_index) :
    let r := KeyframeStrip.keyframe_insert prim ks oi rna_path array_index
      time_value settings asm
    (r.1 = none →
      r.2 = (ks.fcurve_find_or_create oi rna_path array_index asm).1)
    ∧ (r.1 = none → ∀ c, ks.fcurve_find oi rna_path array_index = some c →
        r.2 = ks)
    ∧ (r.1 = none → ∀ oi2 path2 idx2 c,
        ks.fcurve_find oi2 path2 idx2 = some c →
        KeyframeStrip.fcurve_find r.2 oi2 path2 idx2 = some c)
    ∧ (∀ c, r.1 = some c →
        KeyframeStrip.fcurve_find r.2 oi rna_path array_index = some c) := by
  intro r
  have hfind1 := fcurve_find_or_create_find ks oi rna_path array_index asm
  have hfields := fcurve_find_fields
    (ks.fcurve_find_or_create oi rna_path array_index asm).1 oi rna_path
    array_index (ks.fcurve_find_or_create oi rna_path array_index asm).2 hfind1
  have hr : r = KeyframeStrip.keyframe_insert prim ks oi rna_path array_index
      time_value settings asm := rfl
  rw [hr]
  unfold KeyframeStrip.keyframe_insert
  cases hkf : BKE_fcurve_is_keyframable
      (ks.fcurve_find_or_create oi rna_path array_index asm).2 with
  | false =>
    simp only [hkf, Bool.not_false, if_true]
    refine ⟨?_, ?_, ?_, ?_⟩
    · intro _
      trivial
    · intro _ c hc
      rw [fcurve_find_or_create_found ks oi rna_path array_index asm c hc]
    · intro _ oi2 path2 idx2 c hc
      exact fcurve_find_or_create_preserves ks oi rna_path array_index asm
        oi2 path2 idx2 c hc
    · intro c hc
      cases hc
  | true =>
    simp only [hkf, Bool.not_true, Bool.false_eq_true, if_false]
    by_cases hneg : (prim (ks.fcurve_find_or_create oi rna_path array_index asm).2
        time_value settings).2 < 0
    · simp only [if_pos hneg]
      have hpr1 : (prim (ks.fcurve_find_or_create oi rna_path array_index asm).2
          time_value settings).1
          = (ks.fcurve_find_or_create oi rna_path array_index asm).2 :=
        hprim _ _ _ hneg
      have hself : KeyframeStrip.replace_first_fcurve
          (ks.fcurve_find_or_create oi rna_path array_index asm).1 oi rna_path
          array_index
          (prim (ks.fcurve_find_or_create oi rna_path array_index asm).2
            time_value settings).1
          = (ks.fcurve_find_or_create oi rna_path array_index asm).1 := by
        rw [hpr1]
        exact replace_first_fcurve_self _ oi rna_path array_index _ hfind1
      refine ⟨fun _ => hself, ?_, ?_, ?_⟩
      · intro _ c hc
        rw [hself, fcurve_find_or_create_found ks oi rna_path array_index asm c hc]
      · intro _ oi2 path2 idx2 c hc
        rw [hself]
        exact fcurve_find_or_create_preserves ks oi rna_path array_index asm
          oi2 path2 idx2 c hc
      · intro c hc
        cases hc
    · simp only [if_neg hneg]
      refine ⟨?_, ?_, ?_, ?_⟩
      · intro hc
        exact absurd hc (Option.some_ne_none _)
      · intro hc
        exact absurd hc (Option.some_ne_none _)
      · intro hc
        exact absurd hc (Option.some_ne_none _)
      intro c hc
      have hc2 : (prim (ks.fcurve_find_or_create oi rna_path array_index asm).2
          time_value settings).1 = c := by
        injection hc
      rw [← hc2]
      apply replace_first_fcurve_find _ oi rna_path array_index
        (ks.fcurve_find_or_create oi rna_path array_index asm).2 _ hfind1
      have hp2 := hprim2 (ks.fcurve_find_or_create oi rna_path array_index asm).2
        time_value settings
      simp [fcurve_matches, hp2.1, hp2.2, hfields.1, hfields.2]

/-- Counterexample to C5 as stated: an insertion primitive that reports
failure (negative index) on a strip with no curve at all.  The call fails
with the none sentinel, yet the data model has changed: the freshly created
channel group and empty curve remain in the strip, contradicting that a
failed call adds no channel group or curve. -/
theorem claim_C5_counterexample :
    (KeyframeStrip.keyframe_insert (fun f _ _ => (f, -1))
        { channels_for_output_array := [] } 1 "location" 0 (1, 47) 0 0).1 = none
    ∧ (KeyframeStrip.keyframe_insert (fun f _ _ => (f, -1))
        { channels_for_output_array := [] } 1 "location" 0 (1, 47) 0 0).2
      ≠ { channels_for_output_array := [] } := by
  decide

/-- Witness for C5: inserting a key into the strip whose only curve is
protected fails with the none sentinel and leaves the strip unchanged. -/
theorem claim_C5_witness :
    (KeyframeStrip.keyframe_insert (fun f _ _ => (f, -1)) protected_strip 1
        "location" 0 (2, 47) 0 0).2 = protected_strip := by
  have h := claim_C5_keyframe_insert_failure (fun f _ _ => (f, -1))
    protected_strip 1 "location" 0 (2, 47) 0 0
    (fun f tv st _ => rfl) (fun f tv st => ⟨rfl, rfl⟩)
  exact h.2.1 (by decide) protected_fcu (by decide)
